import Mathlib

/-!
# Image representation loader and frame-inset adapter

A shallow embedding of `shell/common/skia_util.cc` and of the two inset queries of
`shell/browser/ui/win/electron_desktop_window_tree_host_win.cc`.

Conventions of the embedding.

* A `std::string` / `base::FilePath` is the list of its characters.
* A `float` / `double` scale factor is a rational number: the program only stores and
  passes scale factors on, it never computes with them.  A literal such as `1.33f`
  is the decimal it is written as.
* A `(data, size)` buffer is a list of bytes, `size` being its length.
* Services of the surrounding toolkit (path manipulation, file reading, the PNG and
  JPEG codecs, Skia's bitmap allocation, display metrics) are fields of an
  environment record; every theorem quantifies over all environments.
* `image->AddRepresentation(rep)` appends `rep` to the image's list of
  representations.  Next to the image the loader state carries the list of the
  calls made to the file reader, the codecs and Skia, in program order.
* The `LOG(INFO)` lines of the source have no effect on the results and are left
  out.
-/

namespace electron

namespace util

/-! ## Strings (`base/strings/string_util.h`, `base/strings/pattern.h`) -/

/-- Path and file-name text. -/
abbrev FilePath := List Char

/-- Byte buffers. -/
abbrev Bytes := List UInt8

/-- Case mode of `base::EndsWith`. -/
inductive CompareCase where
  | SENSITIVE
  | INSENSITIVE_ASCII
deriving DecidableEq, Repr

/-- ASCII lowering, `base::ToLowerASCII`: `'A'..'Z'` go to `'a'..'z'`, every other
character is kept. -/
def ToLowerASCII (c : Char) : Char :=
  if 65 ≤ c.toNat ∧ c.toNat ≤ 90 then Char.ofNat (c.toNat + 32) else c

/-- Comparison functor `base::CaseInsensitiveCompareASCII`. -/
def CaseInsensitiveCompareASCII (x y : Char) : Bool :=
  ToLowerASCII x == ToLowerASCII y

/-- Element-wise comparison `std::equal` of two ranges of the same length. -/
def stdEqual (p : Char → Char → Bool) : List Char → List Char → Bool
  | [], [] => true
  | x :: xs, y :: ys => p x y && stdEqual p xs ys
  | _, _ => false

/-- Suffix test `base::EndsWith(str, search_for, case_sensitivity)`: false when
`search_for` is longer than `str`, otherwise the last `search_for.size()`
characters of `str` are compared with `search_for`. -/
def EndsWith (str search_for : List Char) (case_sensitivity : CompareCase) : Bool :=
  if search_for.length > str.length then false
  else
    let source := str.drop (str.length - search_for.length)
    match case_sensitivity with
    | .SENSITIVE => source == search_for
    | .INSENSITIVE_ASCII => stdEqual CaseInsensitiveCompareASCII source search_for

/-- Wildcard match `base::MatchPattern(string, pattern)` for patterns made of `*`
and ordinary characters, as the one pattern of the program is: `*` stands for any
run of characters (also none), every other character for itself, compared
case-sensitively.  The library's `?` and its escape character are left out. -/
def MatchPatternT : (pattern : List Char) → (string : List Char) → Bool
  | [], s => s.isEmpty
  | c :: p, s =>
    if c = '*' then s.tails.any (MatchPatternT p)
    else
      match s with
      | [] => false
      | d :: s' => c == d && MatchPatternT p s'

/-- Wildcard match with the argument order of `base::MatchPattern`. -/
def MatchPattern (string pattern : List Char) : Bool :=
  MatchPatternT pattern string

/-! ## The scale-factor table -/

/-- One entry of the table: a file-name suffix and its scale. -/
structure ScaleFactorPair where
  name : List Char
  scale : Rat
deriving DecidableEq

/-- The table `kScaleFactorPairs`, in source order (`"@2x"` first). -/
def kScaleFactorPairs : List ScaleFactorPair :=
  [ ⟨"@2x".toList, 2.0⟩, ⟨"@3x".toList, 3.0⟩, ⟨"@1x".toList, 1.0⟩, ⟨"@4x".toList, 4.0⟩,
    ⟨"@5x".toList, 5.0⟩, ⟨"@1.25x".toList, 1.25⟩, ⟨"@1.33x".toList, 1.33⟩,
    ⟨"@1.4x".toList, 1.4⟩, ⟨"@1.5x".toList, 1.5⟩, ⟨"@1.8x".toList, 1.8⟩,
    ⟨"@2.5x".toList, 2.5⟩ ]

/-- The loop of `GetScaleFactorFromPath` over a table: the scale of the first entry
whose name ends `filename` (ASCII case-insensitively), `1.0` when the loop runs
out. -/
def scanScaleFactorPairs (filename : List Char) : List ScaleFactorPair → Rat
  | [] => 1.0
  | pair :: rest =>
    if EndsWith filename pair.name .INSENSITIVE_ASCII then pair.scale
    else scanScaleFactorPairs filename rest

/-! ## Bitmaps and images (Skia, `ui/gfx/image`) -/

/-- Alpha interpretation of a bitmap, `SkAlphaType`. -/
inductive SkAlphaType where
  | kUnknown_SkAlphaType
  | kOpaque_SkAlphaType
  | kPremul_SkAlphaType
  | kUnpremul_SkAlphaType
deriving DecidableEq, Repr

/-- Dimensions and alpha type of a 32-bit bitmap, `SkImageInfo`. -/
structure SkImageInfo where
  width : Int
  height : Int
  alphaType : SkAlphaType
deriving DecidableEq

/-- Constructor `SkImageInfo::MakeN32(width, height, at)`. -/
def SkImageInfo.MakeN32 (width height : Int) (at_ : SkAlphaType) : SkImageInfo :=
  ⟨width, height, at_⟩

/-- Bitmap `SkBitmap`: its info, its row stride and its pixel memory; a bitmap
without pixel memory is null. -/
structure SkBitmap where
  info : SkImageInfo
  rowBytes : Nat
  pixels : Option Bytes
deriving DecidableEq

/-- Default-constructed `SkBitmap`: empty and without pixels. -/
def SkBitmap.empty : SkBitmap :=
  ⟨⟨0, 0, .kUnknown_SkAlphaType⟩, 0, none⟩

/-- Test `SkBitmap::isNull()`: no pixel memory. -/
def SkBitmap.isNull (b : SkBitmap) : Bool :=
  b.pixels.isNone

/-- Setter `SkBitmap::setAlphaType`: only the alpha type of the info changes. -/
def SkBitmap.setAlphaType (b : SkBitmap) (a : SkAlphaType) : SkBitmap :=
  { b with info := { b.info with alphaType := a } }

/-- One representation `gfx::ImageSkiaRep(bitmap, scale)`. -/
structure ImageSkiaRep where
  bitmap : SkBitmap
  scale : Rat
deriving DecidableEq

/-- Test `ImageSkiaRep::is_null()`: the bitmap is null. -/
def ImageSkiaRep.is_null (r : ImageSkiaRep) : Bool :=
  r.bitmap.isNull

/-- Multi-resolution image `gfx::ImageSkia`: the ordered list of its
representations. -/
structure ImageSkia where
  image_reps : List ImageSkiaRep
deriving DecidableEq

/-- Method `ImageSkia::AddRepresentation`: the representation is appended. -/
def ImageSkia.AddRepresentation (image : ImageSkia) (rep : ImageSkiaRep) : ImageSkia :=
  ⟨image.image_reps ++ [rep]⟩

/-- Windows icon handle. -/
abbrev HICON := Nat

/-! ## Environment of the loader -/

/-- A call from the loader into the file reader, a codec or Skia. -/
inductive Call where
  | ReadFileToString (path : FilePath)
  | PNGDecode (data : Bytes)
  | JPEGDecode (data : Bytes)
  | computeMinByteSize (width height : Int)
  | allocN32Pixels (width height : Int)
  | writePixels (info : SkImageInfo) (data : Bytes)
  | CreateSkBitmapFromHICON (icon : HICON)
deriving DecidableEq

/-- The services the loader consumes.

* `BaseName`, `RemoveExtension`, `InsertBeforeExtensionASCII`: methods of
  `base::FilePath`.
* `ReadFileToString`: `asar::ReadFileToString`, the file-system state; `none`
  when the file cannot be read.
* `PNGDecode`, `JPEGDecode`: `gfx::PNGCodec::Decode`, `gfx::JPEGCodec::Decode`;
  `none` when the bytes do not decode.
* `computeMinByteSize`: `SkImageInfo::MakeN32(w, h, kPremul).computeMinByteSize()`.
* `allocN32Pixels`: the bitmap `SkBitmap::allocN32Pixels(w, h, isOpaque)` leaves.
* `writePixels`: `SkBitmap::writePixels(pixmap)` on a bitmap with pixel memory:
  the new pixel memory, `none` when the copy fails.
* `CreateSkBitmapFromHICON`: `IconUtil::CreateSkBitmapFromHICON`. -/
structure Env where
  BaseName : FilePath → FilePath
  RemoveExtension : FilePath → FilePath
  InsertBeforeExtensionASCII : FilePath → List Char → FilePath
  ReadFileToString : FilePath → Option Bytes
  PNGDecode : Bytes → Option SkBitmap
  JPEGDecode : Bytes → Option SkBitmap
  computeMinByteSize : Int → Int → Nat
  allocN32Pixels : Int → Int → Bool → SkBitmap
  writePixels : SkBitmap → SkImageInfo → Bytes → Nat → Option Bytes
  CreateSkBitmapFromHICON : HICON → SkBitmap

/-- Loader state: the image being populated and the calls made so far. -/
structure State where
  image : ImageSkia
  calls : List Call
deriving DecidableEq

/-- Record one call. -/
def State.call (st : State) (c : Call) : State :=
  { st with calls := st.calls ++ [c] }

/-- Run `image->AddRepresentation(rep)`. -/
def State.AddRepresentation (st : State) (rep : ImageSkiaRep) : State :=
  { st with image := st.image.AddRepresentation rep }

/-! ## `skia_util.cc` -/

/-- The local `filename` of `GetScaleFactorFromPath` and of
`PopulateImageSkiaRepsFromPath`: `path.BaseName().RemoveExtension()` as text. -/
def filenameOf (env : Env) (path : FilePath) : List Char :=
  env.RemoveExtension (env.BaseName path)

/-- Source function `GetScaleFactorFromPath`. -/
def GetScaleFactorFromPath (env : Env) (path : FilePath) : Rat :=
  let filename := filenameOf env path
  scanScaleFactorPairs filename kScaleFactorPairs

/-- Source function `AddImageSkiaRepFromPNG`. -/
def AddImageSkiaRepFromPNG (env : Env) (st : State) (data : Bytes)
    (scale_factor : Rat) : Bool × State :=
  let st := st.call (.PNGDecode data)
  match env.PNGDecode data with
  | none => (false, st)
  | some bitmap => (true, st.AddRepresentation ⟨bitmap, scale_factor⟩)

/-- Source function `AddImageSkiaRepFromJPEG`. -/
def AddImageSkiaRepFromJPEG (env : Env) (st : State) (data : Bytes)
    (scale_factor : Rat) : Bool × State :=
  let st := st.call (.JPEGDecode data)
  match env.JPEGDecode data with
  | none => (false, st)
  | some bitmap =>
    let bitmap := bitmap.setAlphaType .kOpaque_SkAlphaType
    (true, st.AddRepresentation ⟨bitmap, scale_factor⟩)

/-- The call `bitmap.writePixels({info, data, bitmap.rowBytes()})`: whether the
pixels were written, and the bitmap afterwards. -/
def writePixels (env : Env) (bitmap : SkBitmap) (info : SkImageInfo) (data : Bytes) :
    Bool × SkBitmap :=
  match bitmap.pixels, env.writePixels bitmap info data bitmap.rowBytes with
  | some _, some px => (true, { bitmap with pixels := some px })
  | _, _ => (false, bitmap)

/-- Source function `AddImageSkiaRepFromBuffer`. -/
def AddImageSkiaRepFromBuffer (env : Env) (st : State) (data : Bytes)
    (width height : Int) (scale_factor : Rat) : Bool × State :=
  -- Try PNG first.
  let r := AddImageSkiaRepFromPNG env st data scale_factor
  if r.1 then (true, r.2)
  else
    -- Try JPEG second.
    let r := AddImageSkiaRepFromJPEG env r.2 data scale_factor
    if r.1 then (true, r.2)
    else
      let st := r.2
      if width = 0 ∨ height = 0 then (false, st)
      else
        let info := SkImageInfo.MakeN32 width height .kPremul_SkAlphaType
        let st := st.call (.computeMinByteSize width height)
        if data.length < env.computeMinByteSize width height then (false, st)
        else
          let st := st.call (.allocN32Pixels width height)
          let bitmap := env.allocN32Pixels width height false
          let st := st.call (.writePixels info data)
          let w := writePixels env bitmap info data
          let imgSkiaRep : ImageSkiaRep := ⟨w.2, scale_factor⟩
          (true, st.AddRepresentation imgSkiaRep)

/-- Source function `AddImageSkiaRepFromPath`. -/
def AddImageSkiaRepFromPath (env : Env) (st : State) (path : FilePath)
    (scale_factor : Rat) : Bool × State :=
  let st := st.call (.ReadFileToString path)
  match env.ReadFileToString path with
  | none => (false, st)
  | some file_contents => AddImageSkiaRepFromBuffer env st file_contents 0 0 scale_factor

/-- One turn of the loop of `PopulateImageSkiaRepsFromPath`:
`succeed |= AddImageSkiaRepFromPath(image, path.InsertBeforeExtensionASCII(pair.name), pair.scale)`. -/
def populateStep (env : Env) (path : FilePath) (acc : Bool × State)
    (pair : ScaleFactorPair) : Bool × State :=
  let r := AddImageSkiaRepFromPath env acc.2
    (env.InsertBeforeExtensionASCII path pair.name) pair.scale
  (acc.1 || r.1, r.2)

/-- Source function `PopulateImageSkiaRepsFromPath`. -/
def PopulateImageSkiaRepsFromPath (env : Env) (st : State) (path : FilePath) :
    Bool × State :=
  let succeed := false
  let filename := filenameOf env path
  if MatchPattern filename "*@*x".toList then
    -- Don't search for other representations if the DPI has been specified.
    AddImageSkiaRepFromPath env st path (GetScaleFactorFromPath env path)
  else
    let r := AddImageSkiaRepFromPath env st path 1.0
    let succeed := succeed || r.1
    kScaleFactorPairs.foldl (populateStep env path) (succeed, r.2)

/-- Source function `ReadImageSkiaFromICO` (Windows only). -/
def ReadImageSkiaFromICO (env : Env) (st : State) (icon : HICON) : Bool × State :=
  let st := st.call (.CreateSkBitmapFromHICON icon)
  let bitmap := env.CreateSkBitmapFromHICON icon
  if bitmap.isNull then (false, st)
  else (true, st.AddRepresentation ⟨bitmap, 1.0⟩)

/-! ## Specification of a load

What one load of a file contributes, written after the specification: the file
is read, its bytes are decoded as PNG or else as JPEG (the JPEG bitmap marked
opaque), and a representation at the given scale results when both steps
succeed.  The loader functions above are compared with these. -/

/-- Specification of the decoders: the representation that PNG-or-JPEG decoding of
`data` yields at `scale`, `none` when neither codec accepts the bytes. -/
def specDecode (env : Env) (data : Bytes) (scale : Rat) : Option ImageSkiaRep :=
  match env.PNGDecode data with
  | some bitmap => some ⟨bitmap, scale⟩
  | none =>
    match env.JPEGDecode data with
    | some bitmap => some ⟨bitmap.setAlphaType .kOpaque_SkAlphaType, scale⟩
    | none => none

/-- Specification of the decoder calls on `data`: PNG, then JPEG when PNG fails. -/
def specDecodeCalls (env : Env) (data : Bytes) : List Call :=
  match env.PNGDecode data with
  | some _ => [.PNGDecode data]
  | none => [.PNGDecode data, .JPEGDecode data]

/-- Specification of a load from a path: the representation gained, `none` when
the file cannot be read or does not decode. -/
def specLoad (env : Env) (path : FilePath) (scale : Rat) : Option ImageSkiaRep :=
  match env.ReadFileToString path with
  | none => none
  | some data => specDecode env data scale

/-- Specification of the calls of a load from a path: the read, then the decoder
calls on the bytes read. -/
def specLoadCalls (env : Env) (path : FilePath) : List Call :=
  .ReadFileToString path ::
    match env.ReadFileToString path with
    | none => []
    | some data => specDecodeCalls env data

/-- Specification of the twelve files tried for an unsuffixed name, with their
scales, in order: the file itself at `1.0`, then the file name with each table
suffix inserted before the extension, at the suffix's scale. -/
def specVariants (env : Env) (path : FilePath) : List (FilePath × Rat) :=
  (path, 1.0) ::
    kScaleFactorPairs.map (fun pair => (env.InsertBeforeExtensionASCII path pair.name, pair.scale))

/-- Specification of the files `PopulateImageSkiaRepsFromPath` tries, with their
scales, in order: for a name of the form `*@*x` the file alone at the scale of its
suffix; otherwise the file at `1.0` and then the file name with each table suffix
inserted before the extension, at the suffix's scale. -/
def specAttempts (env : Env) (path : FilePath) : List (FilePath × Rat) :=
  if MatchPattern (filenameOf env path) "*@*x".toList then
    [(path, GetScaleFactorFromPath env path)]
  else specVariants env path

/-- Specification of what `AddImageSkiaRepFromBuffer` appends: the decoded
representation when a codec accepts the bytes; otherwise, when both dimensions
are non-zero and the buffer is at least `computeMinByteSize` long, the allocated
bitmap after the pixel copy, whether the copy succeeded or not; otherwise
nothing. -/
def specBufferReps (env : Env) (data : Bytes) (width height : Int) (scale : Rat) :
    List ImageSkiaRep :=
  match specDecode env data scale with
  | some rep => [rep]
  | none =>
    if width ≠ 0 ∧ height ≠ 0 ∧ env.computeMinByteSize width height ≤ data.length then
      [⟨(writePixels env (env.allocN32Pixels width height false)
        (SkImageInfo.MakeN32 width height .kPremul_SkAlphaType) data).2, scale⟩]
    else []

/-- Modelled from the spec: `SkImageInfo::computeMinByteSize()` for a 32-bit
image, which is Skia code outside this repository; the spec gives four bytes per
pixel, `4 * width * height` bytes in all (64 for 4x4). -/
def N32MinByteSize (width height : Int) : Nat :=
  (4 * width * height).toNat

/-- Specification invariant of a representation: a positive scale factor and a
non-null bitmap. -/
def ImageSkiaRep.WellFormed (rep : ImageSkiaRep) : Prop :=
  0 < rep.scale ∧ rep.bitmap.isNull = false

instance (rep : ImageSkiaRep) : Decidable rep.WellFormed :=
  inferInstanceAs (Decidable (0 < rep.scale ∧ rep.bitmap.isNull = false))

/-! ## A concrete environment

A small instance of `Env`, used to evaluate the loader on concrete inputs:
`/`-separated paths with at most one extension, a file system given as an
association list, and codecs that go by the leading signature bytes. -/

/-- Text after the last `/`. -/
def exampleBaseName (path : FilePath) : FilePath :=
  (path.reverse.takeWhile (fun c => c != '/')).reverse

/-- The text before the last `.` and the extension (with its dot); the extension
is empty when there is no dot. -/
def exampleSplitExtension (path : FilePath) : FilePath × FilePath :=
  let ext := (path.reverse.takeWhile (fun c => c != '.')).reverse
  if ext.length < path.length then (path.take (path.length - ext.length - 1), '.' :: ext)
  else (path, [])

/-- A codec by signature: bytes that start with `signature` decode to a 1x1
bitmap holding the four bytes that follow. -/
def exampleDecode (signature : Bytes) (data : Bytes) : Option SkBitmap :=
  if data.take signature.length = signature then
    some ⟨⟨1, 1, .kPremul_SkAlphaType⟩, 4, some ((data.drop signature.length).take 4)⟩
  else none

/-- The concrete environment over the files `files`. -/
def exampleEnv (files : List (FilePath × Bytes)) : Env where
  BaseName := exampleBaseName
  RemoveExtension := fun p => (exampleSplitExtension p).1
  InsertBeforeExtensionASCII := fun p suffix =>
    (exampleSplitExtension p).1 ++ suffix ++ (exampleSplitExtension p).2
  ReadFileToString := fun p => files.lookup p
  PNGDecode := exampleDecode [137, 80, 78, 71]
  JPEGDecode := exampleDecode [255, 216, 255]
  computeMinByteSize := N32MinByteSize
  allocN32Pixels := fun w h isOpq =>
    ⟨⟨w, h, if isOpq then .kOpaque_SkAlphaType else .kPremul_SkAlphaType⟩,
      (4 * w).toNat, some (List.replicate (N32MinByteSize w h) 0)⟩
  writePixels := fun _ info data _ =>
    some (data.take (N32MinByteSize info.width info.height))
  CreateSkBitmapFromHICON := fun icon =>
    if icon = 0 then SkBitmap.empty
    else ⟨⟨1, 1, .kPremul_SkAlphaType⟩, 4, some [0, 0, 0, 0]⟩

/-- The concrete environment without files, with a pixel copy that always
fails. -/
def exampleEnvFailingCopy : Env :=
  { exampleEnv [] with writePixels := fun _ _ _ _ => none }

/-- Bytes the example PNG codec accepts. -/
def examplePNG : Bytes := [137, 80, 78, 71, 1, 2, 3, 4]

/-- Bytes the example JPEG codec accepts. -/
def exampleJPEG : Bytes := [255, 216, 255, 5, 6, 7, 8]

/-- Bytes neither example codec accepts. -/
def exampleRaw (n : Nat) : Bytes := List.replicate n 9

/-- The bitmap the example PNG codec makes of `examplePNG`. -/
def examplePNGBitmap : SkBitmap := ⟨⟨1, 1, .kPremul_SkAlphaType⟩, 4, some [1, 2, 3, 4]⟩

/-- The initial loader state: an image without representations, no call made. -/
def State.init : State := ⟨⟨[]⟩, []⟩

end util

/-! ## `electron_desktop_window_tree_host_win.cc` -/

/-- Insets `gfx::Insets(top, left, bottom, right)`. -/
structure Insets where
  top : Int
  left : Int
  bottom : Int
  right : Int
deriving DecidableEq, Repr

/-- Monitor handle. -/
abbrev HMONITOR := Nat

/-- System metric index passed to `GetSystemMetricsInDIP`. -/
inductive SystemMetric where
  | SM_CYSIZEFRAME
  | SM_CYCAPTION
deriving DecidableEq, Repr

/-- What the window host reads from the toolkit: the window state
(`IsMaximized()`, `native_window_view_->has_frame()`) and the display metrics
(`ui::GetFrameThickness`, `ScreenWin::GetSystemMetricsInDIP`,
`display::win::GetDPIScale`, `gfx::Insets::Scale`, `ui::win::IsAeroGlassEnabled`). -/
structure WindowEnv where
  IsMaximized : Bool
  has_frame : Bool
  GetFrameThickness : HMONITOR → Int
  GetSystemMetricsInDIP : SystemMetric → Int
  GetDPIScale : Rat
  Scale : Insets → Rat → Insets
  IsAeroGlassEnabled : Bool

namespace ElectronDesktopWindowTreeHostWin

/-- Source method `ShouldPaintAsActive`. -/
def ShouldPaintAsActive (_env : WindowEnv) : Bool :=
  false

/-- Source method `HasNativeFrame`. -/
def HasNativeFrame (env : WindowEnv) : Bool :=
  !env.IsAeroGlassEnabled

/-- Source method `GetDwmFrameInsetsInPixels`: the returned flag and the value of
`*insets` afterwards. -/
def GetDwmFrameInsetsInPixels (env : WindowEnv) (insets : Insets) : Bool × Insets :=
  if env.IsMaximized && !env.has_frame then
    let caption_height :=
      env.GetSystemMetricsInDIP .SM_CYSIZEFRAME + env.GetSystemMetricsInDIP .SM_CYCAPTION
    let insets : Insets := ⟨caption_height, 0, 0, 0⟩
    -- The DWM API's expect values in pixels.
    let insets := env.Scale insets env.GetDPIScale
    (true, insets)
  else (false, insets)

/-- Source method `GetClientAreaInsets`: the returned flag and the value of
`*insets` afterwards. -/
def GetClientAreaInsets (env : WindowEnv) (insets : Insets) (monitor : HMONITOR) :
    Bool × Insets :=
  if env.IsMaximized && !env.has_frame then
    let frame_thickness := env.GetFrameThickness monitor
    let insets : Insets := ⟨0, frame_thickness, frame_thickness, frame_thickness⟩
    (true, insets)
  else (false, insets)

end ElectronDesktopWindowTreeHostWin

/-- A concrete window environment: metrics of a 96-dpi display (DPI scale 1, under
which scaling leaves insets as they are) with a frame eight pixels thick on every
monitor. -/
def exampleWindowEnv (maximized frame : Bool) : WindowEnv where
  IsMaximized := maximized
  has_frame := frame
  GetFrameThickness := fun _ => 8
  GetSystemMetricsInDIP := fun m =>
    match m with
    | .SM_CYSIZEFRAME => 4
    | .SM_CYCAPTION => 23
  GetDPIScale := 1
  Scale := fun i _ => i
  IsAeroGlassEnabled := true

end electron

namespace electron

namespace util

/-! ## Suffix test -/

theorem stdEqual_ci_iff (a b : List Char) :
    stdEqual CaseInsensitiveCompareASCII a b = true ↔
      a.map ToLowerASCII = b.map ToLowerASCII := by
  induction a generalizing b with
  | nil => cases b <;> simp [stdEqual]
  | cons x xs ih =>
    cases b with
    | nil => simp [stdEqual]
    | cons y ys => simp [stdEqual, CaseInsensitiveCompareASCII, ih]

/-- The case-insensitive `EndsWith` holds exactly when the lowered suffix is a
suffix of the lowered string. -/
theorem EndsWith_ci_iff (str s : List Char) :
    EndsWith str s .INSENSITIVE_ASCII = true ↔
      s.map ToLowerASCII <:+ str.map ToLowerASCII := by
  unfold EndsWith
  by_cases hlen : s.length > str.length
  · simp only [hlen, if_true]
    constructor
    · intro h; cases h
    · intro h
      have := h.length_le
      simp at this
      omega
  · simp only [hlen, if_false, stdEqual_ci_iff]
    rw [List.suffix_iff_eq_drop]
    simp only [List.length_map, List.map_drop]
    exact eq_comm

/-- Whatever precedes it, a case variant of `s` at the end of a name is found by
`EndsWith`. -/
theorem EndsWith_ci_append (pre suf s : List Char)
    (h : suf.map ToLowerASCII = s.map ToLowerASCII) :
    EndsWith (pre ++ suf) s .INSENSITIVE_ASCII = true := by
  rw [EndsWith_ci_iff, List.map_append, ← h]
  exact List.suffix_append _ _

/-- The case-insensitive `EndsWith` holds exactly when the string splits into a
front part and a case variant of the suffix. -/
theorem EndsWith_ci_iff_exists (str s : List Char) :
    EndsWith str s .INSENSITIVE_ASCII = true ↔
      ∃ pre suf, str = pre ++ suf ∧ suf.map ToLowerASCII = s.map ToLowerASCII := by
  constructor
  · intro h
    rw [EndsWith_ci_iff, List.suffix_iff_eq_drop] at h
    refine ⟨str.take (str.length - s.length), str.drop (str.length - s.length),
      (List.take_append_drop _ _).symm, ?_⟩
    rw [h]
    simp only [List.length_map, List.map_drop]
  · rintro ⟨pre, suf, rfl, h⟩
    exact EndsWith_ci_append pre suf s h

/-- A name without `@` ends with no string that starts with `@`. -/
theorem EndsWith_ci_at_false (str s : List Char) (h : '@' ∉ str) :
    EndsWith str ('@' :: s) .INSENSITIVE_ASCII = false := by
  rw [← Bool.not_eq_true, EndsWith_ci_iff]
  intro hsuf
  have hmem : ToLowerASCII '@' ∈ str.map ToLowerASCII :=
    hsuf.subset (by simp)
  rcases List.mem_map.1 hmem with ⟨c, hc, hlow⟩
  have hc' : c = '@' := by
    unfold ToLowerASCII at hlow
    have h64 : ('@' : Char).toNat = 64 := by decide
    simp only [h64] at hlow
    norm_num at hlow
    by_cases hr : 65 ≤ c.toNat ∧ c.toNat ≤ 90
    · rw [if_pos hr] at hlow
      obtain ⟨h1, h2⟩ := hr
      generalize c.toNat = n at hlow h1 h2
      interval_cases n <;> exact absurd hlow (by decide)
    · rw [if_neg hr] at hlow
      exact hlow
  exact h (hc' ▸ hc)

/-! ## The table -/

/-- No table suffix is, case-insensitively, the end of another one. -/
theorem kScaleFactorPairs_suffix_unique :
    ∀ p ∈ kScaleFactorPairs, ∀ q ∈ kScaleFactorPairs,
      p.name.map ToLowerASCII <:+ q.name.map ToLowerASCII → p.name = q.name := by
  decide

/-- The table holds one entry per suffix. -/
theorem kScaleFactorPairs_name_inj :
    ∀ p ∈ kScaleFactorPairs, ∀ q ∈ kScaleFactorPairs, p.name = q.name → p = q := by
  intro p hp q hq h
  simp only [kScaleFactorPairs, List.mem_cons, List.mem_singleton, List.not_mem_nil,
    or_false] at hp hq
  rcases hp with rfl | rfl | rfl | rfl | rfl | rfl | rfl | rfl | rfl | rfl | rfl <;>
    rcases hq with rfl | rfl | rfl | rfl | rfl | rfl | rfl | rfl | rfl | rfl | rfl <;>
    first
      | rfl
      | exact absurd h (by decide)

/-- Every table entry's suffix starts with `@`. -/
theorem kScaleFactorPairs_name_at :
    ∀ p ∈ kScaleFactorPairs, ∃ s, p.name = '@' :: s := by
  intro p hp
  simp only [kScaleFactorPairs, List.mem_cons, List.mem_singleton, List.not_mem_nil,
    or_false] at hp
  rcases hp with rfl | rfl | rfl | rfl | rfl | rfl | rfl | rfl | rfl | rfl | rfl <;>
    exact ⟨_, rfl⟩

/-- Two table entries that both end the same name are the same entry. -/
theorem kScaleFactorPairs_match_unique (filename : List Char)
    (p q : ScaleFactorPair) (hp : p ∈ kScaleFactorPairs) (hq : q ∈ kScaleFactorPairs)
    (h1 : EndsWith filename p.name .INSENSITIVE_ASCII = true)
    (h2 : EndsWith filename q.name .INSENSITIVE_ASCII = true) : q = p := by
  rw [EndsWith_ci_iff] at h1 h2
  rcases List.suffix_or_suffix_of_suffix h1 h2 with h | h
  · exact (kScaleFactorPairs_name_inj p hp q hq
      (kScaleFactorPairs_suffix_unique p hp q hq h)).symm
  · exact kScaleFactorPairs_name_inj q hq p hp
      (kScaleFactorPairs_suffix_unique q hq p hp h)

/-- The scan returns the scale of a matching entry as soon as every matching entry
of the table scanned is that entry. -/
theorem scanScaleFactorPairs_eq (filename : List Char) (p : ScaleFactorPair) :
    ∀ table : List ScaleFactorPair, p ∈ table →
      EndsWith filename p.name .INSENSITIVE_ASCII = true →
      (∀ q ∈ table, EndsWith filename q.name .INSENSITIVE_ASCII = true → q = p) →
      scanScaleFactorPairs filename table = p.scale := by
  intro table
  induction table with
  | nil => intro hp; cases hp
  | cons q rest ih =>
    intro hp hends huniq
    unfold scanScaleFactorPairs
    by_cases hq : EndsWith filename q.name .INSENSITIVE_ASCII = true
    · rw [if_pos hq, huniq q (List.mem_cons_self _ _) hq]
    · rw [if_neg hq]
      have hne : p ≠ q := fun e => hq (e ▸ hends)
      rcases List.mem_cons.1 hp with e | hrest
      · exact absurd e hne
      · exact ih hrest hends (fun r hr => huniq r (List.mem_cons_of_mem _ hr))

/-- The scan returns `1.0` when no entry of the table scanned matches. -/
theorem scanScaleFactorPairs_none (filename : List Char) :
    ∀ table : List ScaleFactorPair,
      (∀ q ∈ table, EndsWith filename q.name .INSENSITIVE_ASCII = false) →
      scanScaleFactorPairs filename table = 1.0 := by
  intro table
  induction table with
  | nil => intro _; rfl
  | cons q rest ih =>
    intro h
    unfold scanScaleFactorPairs
    rw [h q (List.mem_cons_self _ _)]
    simpa using ih (fun r hr => h r (List.mem_cons_of_mem _ hr))

/-- The eleven suffixes and multipliers of the file-naming convention are the
entries of the table. -/
theorem mem_kScaleFactorPairs_iff (p : ScaleFactorPair) :
    p ∈ ([ ⟨"@1x".toList, 1.0⟩, ⟨"@1.25x".toList, 1.25⟩, ⟨"@1.33x".toList, 1.33⟩,
          ⟨"@1.4x".toList, 1.4⟩, ⟨"@1.5x".toList, 1.5⟩, ⟨"@1.8x".toList, 1.8⟩,
          ⟨"@2x".toList, 2.0⟩, ⟨"@2.5x".toList, 2.5⟩, ⟨"@3x".toList, 3.0⟩,
          ⟨"@4x".toList, 4.0⟩, ⟨"@5x".toList, 5.0⟩ ] : List ScaleFactorPair) ↔
      p ∈ kScaleFactorPairs := by
  simp only [kScaleFactorPairs, List.mem_cons, List.mem_singleton, List.not_mem_nil,
    or_false]
  tauto

/-! ## Claims on `GetScaleFactorFromPath` -/

/-- C1: when the extension-stripped base name of `path` is some text followed by
an ASCII case variant of one of the eleven suffixes `@1x, @1.25x, @1.33x, @1.4x,
@1.5x, @1.8x, @2x, @2.5x, @3x, @4x, @5x`, whatever the text in front,
`GetScaleFactorFromPath` returns that suffix's multiplier `1.0, 1.25, 1.33, 1.4,
1.5, 1.8, 2.0, 2.5, 3.0, 4.0, 5.0`; the suffix test of the code finds the entry,
no other table entry matches the name, and scanning the table in any other order
returns the same multiplier. -/
theorem GetScaleFactorFromPath_known_suffix (env : Env) (path : FilePath)
    (pair : ScaleFactorPair) (pre suf : List Char)
    (hpair : pair ∈ ([ ⟨"@1x".toList, 1.0⟩, ⟨"@1.25x".toList, 1.25⟩,
      ⟨"@1.33x".toList, 1.33⟩, ⟨"@1.4x".toList, 1.4⟩, ⟨"@1.5x".toList, 1.5⟩,
      ⟨"@1.8x".toList, 1.8⟩, ⟨"@2x".toList, 2.0⟩, ⟨"@2.5x".toList, 2.5⟩,
      ⟨"@3x".toList, 3.0⟩, ⟨"@4x".toList, 4.0⟩, ⟨"@5x".toList, 5.0⟩ ] :
      List ScaleFactorPair))
    (hname : filenameOf env path = pre ++ suf)
    (hci : suf.map ToLowerASCII = pair.name.map ToLowerASCII) :
    EndsWith (filenameOf env path) pair.name .INSENSITIVE_ASCII = true ∧
    GetScaleFactorFromPath env path = pair.scale ∧
    (∀ q ∈ kScaleFactorPairs,
      EndsWith (filenameOf env path) q.name .INSENSITIVE_ASCII = true → q = pair) ∧
    (∀ table : List ScaleFactorPair, table.Perm kScaleFactorPairs →
      scanScaleFactorPairs (filenameOf env path) table = pair.scale) := by
  have hends : EndsWith (filenameOf env path) pair.name .INSENSITIVE_ASCII = true := by
    rw [hname]
    exact EndsWith_ci_append pre suf pair.name hci
  have hmem : pair ∈ kScaleFactorPairs := (mem_kScaleFactorPairs_iff pair).1 hpair
  have huniq : ∀ q ∈ kScaleFactorPairs,
      EndsWith (filenameOf env path) q.name .INSENSITIVE_ASCII = true → q = pair :=
    fun q hq h => kScaleFactorPairs_match_unique _ pair q hmem hq hends h
  refine ⟨hends, ?_, huniq, ?_⟩
  · exact scanScaleFactorPairs_eq _ pair kScaleFactorPairs hmem hends huniq
  · intro table hperm
    exact scanScaleFactorPairs_eq _ pair table (hperm.mem_iff.2 hmem) hends
      (fun q hq h => huniq q (hperm.mem_iff.1 hq) h)

/-- C1 at `dir/icon@1.25X.png` (an upper-case `X`): the result is `1.25`. -/
theorem GetScaleFactorFromPath_known_suffix_witness :
    filenameOf (exampleEnv []) "dir/icon@1.25X.png".toList =
      "icon".toList ++ "@1.25X".toList ∧
    "@1.25X".toList.map ToLowerASCII = "@1.25x".toList.map ToLowerASCII ∧
    GetScaleFactorFromPath (exampleEnv []) "dir/icon@1.25X.png".toList = 1.25 ∧
    (∀ q ∈ kScaleFactorPairs,
      EndsWith (filenameOf (exampleEnv []) "dir/icon@1.25X.png".toList) q.name
        .INSENSITIVE_ASCII = true → q = ⟨"@1.25x".toList, 1.25⟩) ∧
    (∀ table : List ScaleFactorPair, table.Perm kScaleFactorPairs →
      scanScaleFactorPairs (filenameOf (exampleEnv []) "dir/icon@1.25X.png".toList) table
        = 1.25) :=
  ⟨by decide, by decide,
    (GetScaleFactorFromPath_known_suffix (exampleEnv []) "dir/icon@1.25X.png".toList
      ⟨"@1.25x".toList, 1.25⟩ "icon".toList "@1.25X".toList (by simp) (by decide)
      (by decide)).2⟩

/-- C2: when the extension-stripped base name of `path` ends, ASCII
case-insensitively, with none of the eleven table suffixes, `GetScaleFactorFromPath`
returns `1.0`.  The premise is given as the code tests it, then as "the name is
no text followed by a case variant of a suffix", then for the names without any
`@`. -/
theorem GetScaleFactorFromPath_no_suffix (env : Env) (path : FilePath) :
    ((∀ pair ∈ kScaleFactorPairs,
        EndsWith (filenameOf env path) pair.name .INSENSITIVE_ASCII = false) →
      GetScaleFactorFromPath env path = 1.0) ∧
    ((∀ pair ∈ kScaleFactorPairs, ∀ pre suf, filenameOf env path = pre ++ suf →
        suf.map ToLowerASCII ≠ pair.name.map ToLowerASCII) →
      GetScaleFactorFromPath env path = 1.0) ∧
    ('@' ∉ filenameOf env path → GetScaleFactorFromPath env path = 1.0) := by
  have h1 : (∀ pair ∈ kScaleFactorPairs,
        EndsWith (filenameOf env path) pair.name .INSENSITIVE_ASCII = false) →
      GetScaleFactorFromPath env path = 1.0 :=
    fun h => scanScaleFactorPairs_none _ kScaleFactorPairs h
  refine ⟨h1, fun hsplit => h1 ?_, fun hat => h1 ?_⟩
  · intro pair hpair
    rw [← Bool.not_eq_true, EndsWith_ci_iff_exists]
    rintro ⟨pre, suf, hname, hci⟩
    exact hsplit pair hpair pre suf hname hci
  · intro pair hpair
    rcases kScaleFactorPairs_name_at pair hpair with ⟨s, hs⟩
    rw [hs]
    exact EndsWith_ci_at_false _ s hat

/-- C2 at the near-miss `icon@02x.png` and at `icon.png`: both give `1.0`. -/
theorem GetScaleFactorFromPath_no_suffix_witness :
    (∀ pair ∈ kScaleFactorPairs,
      EndsWith (filenameOf (exampleEnv []) "icon@02x.png".toList) pair.name
        .INSENSITIVE_ASCII = false) ∧
    GetScaleFactorFromPath (exampleEnv []) "icon@02x.png".toList = 1.0 ∧
    '@' ∉ filenameOf (exampleEnv []) "icon.png".toList ∧
    GetScaleFactorFromPath (exampleEnv []) "icon.png".toList = 1.0 :=
  ⟨by decide,
   (GetScaleFactorFromPath_no_suffix (exampleEnv []) "icon@02x.png".toList).1 (by decide),
   by decide,
   (GetScaleFactorFromPath_no_suffix (exampleEnv []) "icon.png".toList).2.2 (by decide)⟩

end util

end electron

namespace electron

namespace util

/-! ## The single-buffer loaders -/

theorem AddImageSkiaRepFromPNG_some (env : Env) (st : State) (data : Bytes) (scale : Rat)
    (bitmap : SkBitmap) (h : env.PNGDecode data = some bitmap) :
    AddImageSkiaRepFromPNG env st data scale =
      (true, ⟨⟨st.image.image_reps ++ [⟨bitmap, scale⟩]⟩, st.calls ++ [.PNGDecode data]⟩) := by
  simp [AddImageSkiaRepFromPNG, h, State.call, State.AddRepresentation,
    ImageSkia.AddRepresentation]

theorem AddImageSkiaRepFromPNG_none (env : Env) (st : State) (data : Bytes) (scale : Rat)
    (h : env.PNGDecode data = none) :
    AddImageSkiaRepFromPNG env st data scale =
      (false, ⟨st.image, st.calls ++ [.PNGDecode data]⟩) := by
  simp [AddImageSkiaRepFromPNG, h, State.call]

theorem AddImageSkiaRepFromJPEG_some (env : Env) (st : State) (data : Bytes) (scale : Rat)
    (bitmap : SkBitmap) (h : env.JPEGDecode data = some bitmap) :
    AddImageSkiaRepFromJPEG env st data scale =
      (true, ⟨⟨st.image.image_reps ++ [⟨bitmap.setAlphaType .kOpaque_SkAlphaType, scale⟩]⟩,
        st.calls ++ [.JPEGDecode data]⟩) := by
  simp [AddImageSkiaRepFromJPEG, h, State.call, State.AddRepresentation,
    ImageSkia.AddRepresentation]

theorem AddImageSkiaRepFromJPEG_none (env : Env) (st : State) (data : Bytes) (scale : Rat)
    (h : env.JPEGDecode data = none) :
    AddImageSkiaRepFromJPEG env st data scale =
      (false, ⟨st.image, st.calls ++ [.JPEGDecode data]⟩) := by
  simp [AddImageSkiaRepFromJPEG, h, State.call]

/-- A buffer the PNG codec accepts: one PNG call, one representation. -/
theorem AddImageSkiaRepFromBuffer_png (env : Env) (st : State) (data : Bytes)
    (width height : Int) (scale : Rat) (bitmap : SkBitmap)
    (h : env.PNGDecode data = some bitmap) :
    AddImageSkiaRepFromBuffer env st data width height scale =
      (true, ⟨⟨st.image.image_reps ++ [⟨bitmap, scale⟩]⟩, st.calls ++ [.PNGDecode data]⟩) := by
  simp [AddImageSkiaRepFromBuffer, AddImageSkiaRepFromPNG_some env st data scale bitmap h]

/-- A buffer only the JPEG codec accepts: both codecs are called, one
representation is gained. -/
theorem AddImageSkiaRepFromBuffer_jpeg (env : Env) (st : State) (data : Bytes)
    (width height : Int) (scale : Rat) (bitmap : SkBitmap)
    (hpng : env.PNGDecode data = none) (h : env.JPEGDecode data = some bitmap) :
    AddImageSkiaRepFromBuffer env st data width height scale =
      (true, ⟨⟨st.image.image_reps ++ [⟨bitmap.setAlphaType .kOpaque_SkAlphaType, scale⟩]⟩,
        st.calls ++ [.PNGDecode data, .JPEGDecode data]⟩) := by
  simp [AddImageSkiaRepFromBuffer, AddImageSkiaRepFromPNG_none env st data scale hpng,
    AddImageSkiaRepFromJPEG_some env _ data scale bitmap h]

/-- A buffer no codec accepts, without dimensions: nothing is gained. -/
theorem AddImageSkiaRepFromBuffer_nodim (env : Env) (st : State) (data : Bytes)
    (width height : Int) (scale : Rat)
    (hpng : env.PNGDecode data = none) (hjpeg : env.JPEGDecode data = none)
    (hdim : width = 0 ∨ height = 0) :
    AddImageSkiaRepFromBuffer env st data width height scale =
      (false, ⟨st.image, st.calls ++ [.PNGDecode data, .JPEGDecode data]⟩) := by
  simp [AddImageSkiaRepFromBuffer, AddImageSkiaRepFromPNG_none env st data scale hpng,
    AddImageSkiaRepFromJPEG_none env _ data scale hjpeg, hdim]

/-- A buffer no codec accepts, with dimensions, too short: nothing is gained. -/
theorem AddImageSkiaRepFromBuffer_short (env : Env) (st : State) (data : Bytes)
    (width height : Int) (scale : Rat)
    (hpng : env.PNGDecode data = none) (hjpeg : env.JPEGDecode data = none)
    (hw : width ≠ 0) (hh : height ≠ 0)
    (hsize : data.length < env.computeMinByteSize width height) :
    AddImageSkiaRepFromBuffer env st data width height scale =
      (false, ⟨st.image, st.calls ++
        [.PNGDecode data, .JPEGDecode data, .computeMinByteSize width height]⟩) := by
  simp [AddImageSkiaRepFromBuffer, AddImageSkiaRepFromPNG_none env st data scale hpng,
    AddImageSkiaRepFromJPEG_none env _ data scale hjpeg, hw, hh, hsize, State.call]

/-- A buffer no codec accepts, with dimensions, long enough: the raw bitmap is
appended whatever `writePixels` answers. -/
theorem AddImageSkiaRepFromBuffer_raw (env : Env) (st : State) (data : Bytes)
    (width height : Int) (scale : Rat)
    (hpng : env.PNGDecode data = none) (hjpeg : env.JPEGDecode data = none)
    (hw : width ≠ 0) (hh : height ≠ 0)
    (hsize : env.computeMinByteSize width height ≤ data.length) :
    AddImageSkiaRepFromBuffer env st data width height scale =
      (true, ⟨⟨st.image.image_reps ++
          [⟨(writePixels env (env.allocN32Pixels width height false)
              (SkImageInfo.MakeN32 width height .kPremul_SkAlphaType) data).2, scale⟩]⟩,
        st.calls ++
          [.PNGDecode data, .JPEGDecode data, .computeMinByteSize width height,
           .allocN32Pixels width height,
           .writePixels (SkImageInfo.MakeN32 width height .kPremul_SkAlphaType) data]⟩) := by
  have hsize' : ¬ data.length < env.computeMinByteSize width height := by omega
  simp [AddImageSkiaRepFromBuffer, AddImageSkiaRepFromPNG_none env st data scale hpng,
    AddImageSkiaRepFromJPEG_none env _ data scale hjpeg, hw, hh, hsize', State.call,
    State.AddRepresentation, ImageSkia.AddRepresentation]

/-- The pixel copy never changes whether the bitmap is null. -/
theorem writePixels_isNull (env : Env) (bitmap : SkBitmap) (info : SkImageInfo)
    (data : Bytes) : (writePixels env bitmap info data).2.isNull = bitmap.isNull := by
  unfold writePixels
  cases hp : bitmap.pixels with
  | none => simp
  | some px =>
    cases hw : env.writePixels bitmap info data bitmap.rowBytes with
    | none => simp
    | some px' => simp [SkBitmap.isNull, hp]

/-- Without dimensions, `AddImageSkiaRepFromBuffer` does what the specification of
the decoders says. -/
theorem AddImageSkiaRepFromBuffer_zero (env : Env) (st : State) (data : Bytes)
    (scale : Rat) :
    AddImageSkiaRepFromBuffer env st data 0 0 scale =
      ((specDecode env data scale).isSome,
        ⟨⟨st.image.image_reps ++ (specDecode env data scale).toList⟩,
          st.calls ++ specDecodeCalls env data⟩) := by
  cases hpng : env.PNGDecode data with
  | some bitmap =>
    simp [AddImageSkiaRepFromBuffer_png env st data 0 0 scale bitmap hpng, specDecode,
      specDecodeCalls, hpng]
  | none =>
    cases hjpeg : env.JPEGDecode data with
    | some bitmap =>
      simp [AddImageSkiaRepFromBuffer_jpeg env st data 0 0 scale bitmap hpng hjpeg,
        specDecode, specDecodeCalls, hpng, hjpeg]
    | none =>
      simp [AddImageSkiaRepFromBuffer_nodim env st data 0 0 scale hpng hjpeg (Or.inl rfl),
        specDecode, specDecodeCalls, hpng, hjpeg]

/-- The function `AddImageSkiaRepFromPath` does what the specification of a load
says. -/
theorem AddImageSkiaRepFromPath_eq (env : Env) (st : State) (path : FilePath)
    (scale : Rat) :
    AddImageSkiaRepFromPath env st path scale =
      ((specLoad env path scale).isSome,
        ⟨⟨st.image.image_reps ++ (specLoad env path scale).toList⟩,
          st.calls ++ specLoadCalls env path⟩) := by
  unfold AddImageSkiaRepFromPath
  cases hread : env.ReadFileToString path with
  | none => simp [specLoad, specLoadCalls, hread, State.call]
  | some data =>
    simp [AddImageSkiaRepFromBuffer_zero, specLoad, specLoadCalls, hread, State.call]

theorem specDecode_scale (env : Env) (data : Bytes) (scale : Rat) (rep : ImageSkiaRep)
    (h : specDecode env data scale = some rep) : rep.scale = scale := by
  unfold specDecode at h
  cases hpng : env.PNGDecode data with
  | some bitmap => simp [hpng] at h; rw [← h]
  | none =>
    cases hjpeg : env.JPEGDecode data with
    | some bitmap => simp [hpng, hjpeg] at h; rw [← h]
    | none => simp [hpng, hjpeg] at h

theorem specLoad_scale (env : Env) (path : FilePath) (scale : Rat) (rep : ImageSkiaRep)
    (h : specLoad env path scale = some rep) : rep.scale = scale := by
  unfold specLoad at h
  cases hread : env.ReadFileToString path with
  | none => simp [hread] at h
  | some data =>
    simp only [hread] at h
    exact specDecode_scale env data scale rep h

/-- A successful load is a successful read followed by a successful decode. -/
theorem specLoad_isSome_iff (env : Env) (path : FilePath) (scale : Rat) :
    (specLoad env path scale).isSome = true ↔
      ∃ data, env.ReadFileToString path = some data ∧
        ((env.PNGDecode data).isSome = true ∨ (env.JPEGDecode data).isSome = true) := by
  unfold specLoad
  cases hread : env.ReadFileToString path with
  | none => simp
  | some data =>
    simp only [Option.some.injEq, exists_eq_left']
    unfold specDecode
    cases hpng : env.PNGDecode data with
    | some bitmap => simp
    | none =>
      cases hjpeg : env.JPEGDecode data with
      | some bitmap => simp
      | none => simp

end util

end electron

namespace electron

namespace util

/-! ## `PopulateImageSkiaRepsFromPath` -/

/-- The loop of `PopulateImageSkiaRepsFromPath` over any list of pairs: it tries
every pair's file in turn, whatever the earlier outcomes. -/
theorem populate_foldl (env : Env) (path : FilePath) :
    ∀ (table : List ScaleFactorPair) (acc : Bool × State),
      table.foldl (populateStep env path) acc =
        (acc.1 || (table.map (fun pair =>
              (env.InsertBeforeExtensionASCII path pair.name, pair.scale))).any
            (fun a => (specLoad env a.1 a.2).isSome),
          ⟨⟨acc.2.image.image_reps ++ (table.map (fun pair =>
              (env.InsertBeforeExtensionASCII path pair.name, pair.scale))).filterMap
            (fun a => specLoad env a.1 a.2)⟩,
           acc.2.calls ++ (table.map (fun pair =>
              (env.InsertBeforeExtensionASCII path pair.name, pair.scale))).flatMap
            (fun a => specLoadCalls env a.1)⟩) := by
  intro table
  induction table with
  | nil => intro acc; simp
  | cons pair rest ih =>
    intro acc
    rw [List.foldl_cons, ih]
    simp only [populateStep, AddImageSkiaRepFromPath_eq, List.map_cons, List.any_cons,
      List.flatMap_cons, List.append_assoc, Bool.or_assoc]
    cases hload : specLoad env (env.InsertBeforeExtensionASCII path pair.name) pair.scale with
    | none => simp [List.filterMap_cons, hload]
    | some rep => simp [List.filterMap_cons, hload]

/-- The function `PopulateImageSkiaRepsFromPath` loads the files of `specAttempts`
in order: it succeeds when one of the loads does, the image gains the
representations of the successful loads, and the calls are those of the loads. -/
theorem PopulateImageSkiaRepsFromPath_eq (env : Env) (st : State) (path : FilePath) :
    PopulateImageSkiaRepsFromPath env st path =
      ((specAttempts env path).any (fun a => (specLoad env a.1 a.2).isSome),
        ⟨⟨st.image.image_reps ++
            (specAttempts env path).filterMap (fun a => specLoad env a.1 a.2)⟩,
          st.calls ++ (specAttempts env path).flatMap (fun a => specLoadCalls env a.1)⟩) := by
  unfold PopulateImageSkiaRepsFromPath specAttempts specVariants
  by_cases hm : MatchPattern (filenameOf env path) "*@*x".toList = true
  · simp only [hm, if_true, AddImageSkiaRepFromPath_eq]
    cases hload : specLoad env path (GetScaleFactorFromPath env path) with
    | none => simp [List.filterMap_cons, hload]
    | some rep => simp [List.filterMap_cons, hload]
  · simp only [hm, if_false, populate_foldl, AddImageSkiaRepFromPath_eq, Bool.false_or,
      List.any_cons, List.flatMap_cons, List.append_assoc]
    cases hload : specLoad env path 1.0 with
    | none => simp [List.filterMap_cons, hload]
    | some rep => simp [List.filterMap_cons, hload]

/-- Every scale of the table is positive. -/
theorem kScaleFactorPairs_scale_pos : ∀ p ∈ kScaleFactorPairs, 0 < p.scale := by
  intro p hp
  simp only [kScaleFactorPairs, List.mem_cons, List.mem_singleton, List.not_mem_nil,
    or_false] at hp
  rcases hp with rfl | rfl | rfl | rfl | rfl | rfl | rfl | rfl | rfl | rfl | rfl <;>
    norm_num

theorem scanScaleFactorPairs_pos (filename : List Char) :
    ∀ table : List ScaleFactorPair, (∀ p ∈ table, 0 < p.scale) →
      0 < scanScaleFactorPairs filename table := by
  intro table
  induction table with
  | nil => intro _; unfold scanScaleFactorPairs; norm_num
  | cons q rest ih =>
    intro h
    unfold scanScaleFactorPairs
    by_cases hq : EndsWith filename q.name .INSENSITIVE_ASCII = true
    · rw [if_pos hq]; exact h q (List.mem_cons_self _ _)
    · rw [if_neg hq]; exact ih (fun r hr => h r (List.mem_cons_of_mem _ hr))

/-- Every scale `PopulateImageSkiaRepsFromPath` loads at is positive. -/
theorem specAttempts_scale_pos (env : Env) (path : FilePath) :
    ∀ a ∈ specAttempts env path, 0 < a.2 := by
  intro a ha
  unfold specAttempts specVariants at ha
  by_cases hm : MatchPattern (filenameOf env path) "*@*x".toList = true
  · simp only [hm, if_true, List.mem_singleton] at ha
    rw [ha]
    exact scanScaleFactorPairs_pos _ _ kScaleFactorPairs_scale_pos
  · simp only [hm, Bool.false_eq_true, if_false, List.mem_cons, List.mem_map] at ha
    rcases ha with rfl | ⟨p, hp, rfl⟩
    · norm_num
    · exact kScaleFactorPairs_scale_pos p hp

theorem MatchPatternT_nil (s : List Char) : MatchPatternT [] s = s.isEmpty := by
  rw [MatchPatternT.eq_def]

theorem MatchPatternT_star (p s : List Char) :
    MatchPatternT ('*' :: p) s = s.tails.any (MatchPatternT p) := by
  rw [MatchPatternT.eq_def]
  simp

theorem MatchPatternT_lit_nil (c : Char) (p : List Char) (h : c ≠ '*') :
    MatchPatternT (c :: p) [] = false := by
  rw [MatchPatternT.eq_def]
  simp [h]

theorem MatchPatternT_lit_cons (c d : Char) (p s : List Char) (h : c ≠ '*') :
    MatchPatternT (c :: p) (d :: s) = (c == d && MatchPatternT p s) := by
  rw [MatchPatternT.eq_def]
  simp [h]

/-- The pattern `*@*x` holds of the names that have an `@` somewhere and end with a
lower-case `x` after it. -/
theorem MatchPattern_at_x (s : List Char) :
    MatchPattern s "*@*x".toList = true ↔ ∃ a b, s = a ++ '@' :: (b ++ ['x']) := by
  have hpat : "*@*x".toList = ['*', '@', '*', 'x'] := by decide
  have hx : ∀ u : List Char, MatchPatternT ['x'] u = true ↔ u = ['x'] := by
    intro u
    cases u with
    | nil => simp [MatchPatternT_lit_nil]
    | cons d u' =>
      rw [MatchPatternT_lit_cons _ _ _ _ (by decide), MatchPatternT_nil]
      cases u' with
      | nil =>
        simp only [List.isEmpty_nil, Bool.and_true, beq_iff_eq, List.cons.injEq, and_true]
        exact eq_comm
      | cons e u'' => simp
  have hsx : ∀ t : List Char, MatchPatternT ['*', 'x'] t = true ↔ ∃ b, t = b ++ ['x'] := by
    intro t
    rw [MatchPatternT_star]
    simp only [List.any_eq_true, List.mem_tails]
    constructor
    · rintro ⟨u, ⟨b, hb⟩, hu⟩
      exact ⟨b, by rw [← hb, (hx u).1 hu]⟩
    · rintro ⟨b, hb⟩
      exact ⟨['x'], ⟨b, hb.symm⟩, (hx _).2 rfl⟩
  have hat : ∀ t : List Char, MatchPatternT ['@', '*', 'x'] t = true ↔
      ∃ b, t = '@' :: (b ++ ['x']) := by
    intro t
    cases t with
    | nil => simp [MatchPatternT_lit_nil]
    | cons d t' =>
      rw [MatchPatternT_lit_cons _ _ _ _ (by decide)]
      simp only [Bool.and_eq_true, beq_iff_eq]
      rw [hsx]
      constructor
      · rintro ⟨rfl, b, rfl⟩
        exact ⟨b, rfl⟩
      · rintro ⟨b, hb⟩
        injection hb with h1 h2
        exact ⟨h1.symm, b, h2⟩
  unfold MatchPattern
  rw [hpat, MatchPatternT_star]
  simp only [List.any_eq_true, List.mem_tails]
  constructor
  · rintro ⟨t, ⟨a, ha⟩, ht⟩
    rcases (hat t).1 ht with ⟨b, rfl⟩
    exact ⟨a, b, ha.symm⟩
  · rintro ⟨a, b, rfl⟩
    exact ⟨_, ⟨a, rfl⟩, (hat _).2 ⟨b, rfl⟩⟩

end util

end electron

namespace electron

namespace util

/-! ## Claims on the loaders -/

/-- C3: for a path whose extension-stripped base name does not match `*@*x`,
`PopulateImageSkiaRepsFromPath` tries twelve files in order, the path itself at
scale `1.0` and then the path with each of the eleven table suffixes inserted
before the extension at the suffix's scale, every one of them whatever the
earlier outcomes; it returns true exactly when one of the twelve loads succeeds,
the image gains the representations of the successful loads, as many as there are
successful loads, and each carries the scale of its file. -/
theorem PopulateImageSkiaRepsFromPath_unsuffixed (env : Env) (st : State)
    (path : FilePath)
    (hno : MatchPattern (filenameOf env path) "*@*x".toList = false) :
    (specVariants env path).length = 12 ∧
    (PopulateImageSkiaRepsFromPath env st path).2.calls =
      st.calls ++ (specVariants env path).flatMap (fun a => specLoadCalls env a.1) ∧
    ((PopulateImageSkiaRepsFromPath env st path).1 = true ↔
      ∃ a ∈ specVariants env path, (specLoad env a.1 a.2).isSome = true) ∧
    (PopulateImageSkiaRepsFromPath env st path).2.image.image_reps =
      st.image.image_reps ++
        (specVariants env path).filterMap (fun a => specLoad env a.1 a.2) ∧
    (PopulateImageSkiaRepsFromPath env st path).2.image.image_reps.length =
      st.image.image_reps.length +
        ((specVariants env path).filter (fun a => (specLoad env a.1 a.2).isSome)).length ∧
    (∀ a ∈ specVariants env path, ∀ rep, specLoad env a.1 a.2 = some rep →
      rep.scale = a.2) := by
  have hatt : specAttempts env path = specVariants env path := by
    unfold specAttempts
    rw [if_neg (by rw [hno]; exact Bool.false_ne_true)]
  rw [PopulateImageSkiaRepsFromPath_eq, hatt]
  refine ⟨by simp [specVariants, kScaleFactorPairs], rfl, ?_, rfl, ?_, ?_⟩
  · simp only [List.any_eq_true]
  · simp only [List.length_append, Nat.add_left_cancel_iff]
    generalize specVariants env path = l
    induction l with
    | nil => rfl
    | cons a rest ih =>
      cases h : specLoad env a.1 a.2 with
      | none => simp [List.filterMap_cons, List.filter_cons, h, ih]
      | some rep => simp [List.filterMap_cons, List.filter_cons, h, ih]
  · intro a _ rep h
    exact specLoad_scale env a.1 a.2 rep h

/-- C3 on the examples of the specification: with `icon.png` and `icon@2x.png`
present, a query for `icon.png` is true with the two representations at scales
`1.0` and `2.0`, and all twelve files are read, in order; with `icon@2x.png`
alone present the query is true with one representation at scale `2.0`. -/
theorem PopulateImageSkiaRepsFromPath_unsuffixed_witness :
    MatchPattern
      (filenameOf (exampleEnv [("icon.png".toList, examplePNG),
        ("icon@2x.png".toList, examplePNG)]) "icon.png".toList) "*@*x".toList = false ∧
    (PopulateImageSkiaRepsFromPath (exampleEnv [("icon.png".toList, examplePNG),
        ("icon@2x.png".toList, examplePNG)]) State.init "icon.png".toList).1 = true ∧
    (PopulateImageSkiaRepsFromPath (exampleEnv [("icon.png".toList, examplePNG),
        ("icon@2x.png".toList, examplePNG)]) State.init "icon.png".toList).2.image.image_reps
      = [⟨examplePNGBitmap, 1.0⟩, ⟨examplePNGBitmap, 2.0⟩] ∧
    (PopulateImageSkiaRepsFromPath (exampleEnv [("icon.png".toList, examplePNG),
        ("icon@2x.png".toList, examplePNG)]) State.init "icon.png".toList).2.calls
      = [.ReadFileToString "icon.png".toList, .PNGDecode examplePNG,
         .ReadFileToString "icon@2x.png".toList, .PNGDecode examplePNG,
         .ReadFileToString "icon@3x.png".toList, .ReadFileToString "icon@1x.png".toList,
         .ReadFileToString "icon@4x.png".toList, .ReadFileToString "icon@5x.png".toList,
         .ReadFileToString "icon@1.25x.png".toList,
         .ReadFileToString "icon@1.33x.png".toList,
         .ReadFileToString "icon@1.4x.png".toList, .ReadFileToString "icon@1.5x.png".toList,
         .ReadFileToString "icon@1.8x.png".toList,
         .ReadFileToString "icon@2.5x.png".toList] ∧
    (PopulateImageSkiaRepsFromPath (exampleEnv [("icon@2x.png".toList, exampleJPEG)])
        State.init "icon.png".toList).1 = true ∧
    (PopulateImageSkiaRepsFromPath (exampleEnv [("icon@2x.png".toList, exampleJPEG)])
        State.init "icon.png".toList).2.image.image_reps
      = [⟨⟨⟨1, 1, .kOpaque_SkAlphaType⟩, 4, some [5, 6, 7, 8]⟩, 2.0⟩] :=
  have h := PopulateImageSkiaRepsFromPath_unsuffixed
    (exampleEnv [("icon.png".toList, examplePNG), ("icon@2x.png".toList, examplePNG)])
    State.init "icon.png".toList (by decide)
  have h2 := PopulateImageSkiaRepsFromPath_unsuffixed
    (exampleEnv [("icon@2x.png".toList, exampleJPEG)]) State.init "icon.png".toList
    (by decide)
  ⟨by decide, h.2.2.1.2 ⟨("icon.png".toList, 1.0), by simp [specVariants], by decide⟩,
    h.2.2.2.1.trans (by rfl), h.2.1.trans (by rfl),
    h2.2.2.1.2 ⟨("icon@2x.png".toList, 2.0), by simp [specVariants, kScaleFactorPairs,
      exampleEnv, exampleSplitExtension], by decide⟩,
    h2.2.2.2.1.trans (by rfl)⟩

/-- C4: for a path whose extension-stripped base name matches `*@*x`,
`PopulateImageSkiaRepsFromPath` is
`AddImageSkiaRepFromPath(image, path, GetScaleFactorFromPath(path))`: the one file
read is `path`, the image gains at most one representation, at the scale of
`GetScaleFactorFromPath`, which is `1.0` when the name ends with no table
suffix. -/
theorem PopulateImageSkiaRepsFromPath_suffixed (env : Env) (st : State)
    (path : FilePath)
    (hmatch : MatchPattern (filenameOf env path) "*@*x".toList = true) :
    PopulateImageSkiaRepsFromPath env st path =
      AddImageSkiaRepFromPath env st path (GetScaleFactorFromPath env path) ∧
    (PopulateImageSkiaRepsFromPath env st path).2.calls =
      st.calls ++ specLoadCalls env path ∧
    (∀ p, Call.ReadFileToString p ∈ specLoadCalls env path → p = path) ∧
    (PopulateImageSkiaRepsFromPath env st path).2.image.image_reps =
      st.image.image_reps ++
        (specLoad env path (GetScaleFactorFromPath env path)).toList ∧
    (specLoad env path (GetScaleFactorFromPath env path)).toList.length ≤ 1 ∧
    (∀ rep ∈ (specLoad env path (GetScaleFactorFromPath env path)).toList,
      rep.scale = GetScaleFactorFromPath env path) ∧
    ((∀ pair ∈ kScaleFactorPairs,
        EndsWith (filenameOf env path) pair.name .INSENSITIVE_ASCII = false) →
      ∀ rep ∈ (specLoad env path (GetScaleFactorFromPath env path)).toList,
        rep.scale = 1.0) := by
  have hpop : PopulateImageSkiaRepsFromPath env st path =
      AddImageSkiaRepFromPath env st path (GetScaleFactorFromPath env path) := by
    unfold PopulateImageSkiaRepsFromPath
    simp only [hmatch, if_true]
  have hscale : ∀ rep ∈ (specLoad env path (GetScaleFactorFromPath env path)).toList,
      rep.scale = GetScaleFactorFromPath env path := by
    intro rep hrep
    rw [Option.mem_toList] at hrep
    exact specLoad_scale env path _ rep hrep
  refine ⟨hpop, ?_, ?_, ?_, ?_, hscale, ?_⟩
  · rw [hpop, AddImageSkiaRepFromPath_eq]
  · intro p hp
    unfold specLoadCalls at hp
    rcases List.mem_cons.1 hp with h | h
    · injection h
    · cases hread : env.ReadFileToString path with
      | none => simp [hread] at h
      | some data =>
        simp only [hread] at h
        unfold specDecodeCalls at h
        cases hpng : env.PNGDecode data <;> simp [hpng] at h
  · rw [hpop, AddImageSkiaRepFromPath_eq]
  · cases specLoad env path (GetScaleFactorFromPath env path) <;> simp
  · intro hnone rep hrep
    rw [hscale rep hrep]
    exact scanScaleFactorPairs_none _ kScaleFactorPairs hnone

/-- C4 at `icon@7x.png`: the file alone is read and its representation has scale
`1.0`. -/
theorem PopulateImageSkiaRepsFromPath_suffixed_witness :
    MatchPattern
      (filenameOf (exampleEnv [("icon@7x.png".toList, examplePNG),
        ("icon@7x@2x.png".toList, examplePNG)]) "icon@7x.png".toList) "*@*x".toList = true ∧
    PopulateImageSkiaRepsFromPath (exampleEnv [("icon@7x.png".toList, examplePNG),
        ("icon@7x@2x.png".toList, examplePNG)]) State.init "icon@7x.png".toList =
      (true, ⟨⟨[⟨examplePNGBitmap, 1.0⟩]⟩,
        [.ReadFileToString "icon@7x.png".toList, .PNGDecode examplePNG]⟩) :=
  ⟨by decide,
   (PopulateImageSkiaRepsFromPath_suffixed (exampleEnv [("icon@7x.png".toList, examplePNG),
      ("icon@7x@2x.png".toList, examplePNG)]) State.init "icon@7x.png".toList
      (by decide)).1.trans (by rfl)⟩

/-- C5: for a buffer that neither codec accepts and a positive width and height,
`AddImageSkiaRepFromBuffer` returns true exactly when the buffer is at least as
long as the minimum byte size of a width x height 32-bit image, which is
`4 * width * height` bytes when Skia computes it as the specification says; on
true the image gains exactly one representation, at the requested scale, and on
false it gains none. -/
theorem AddImageSkiaRepFromBuffer_raw_fallback (env : Env) (st : State) (data : Bytes)
    (width height : Int) (scale_factor : Rat)
    (hpng : env.PNGDecode data = none) (hjpeg : env.JPEGDecode data = none)
    (hw : 0 < width) (hh : 0 < height) :
    ((AddImageSkiaRepFromBuffer env st data width height scale_factor).1 = true ↔
      env.computeMinByteSize width height ≤ data.length) ∧
    (env.computeMinByteSize width height = N32MinByteSize width height →
      ((AddImageSkiaRepFromBuffer env st data width height scale_factor).1 = true ↔
        4 * width * height ≤ (data.length : Int))) ∧
    ((AddImageSkiaRepFromBuffer env st data width height scale_factor).1 = true →
      ∃ rep, (AddImageSkiaRepFromBuffer env st data width height
          scale_factor).2.image.image_reps = st.image.image_reps ++ [rep] ∧
        rep.scale = scale_factor) ∧
    ((AddImageSkiaRepFromBuffer env st data width height scale_factor).1 = false →
      (AddImageSkiaRepFromBuffer env st data width height scale_factor).2.image
        = st.image) := by
  have hw0 : width ≠ 0 := by omega
  have hh0 : height ≠ 0 := by omega
  by_cases hsize : env.computeMinByteSize width height ≤ data.length
  · rw [AddImageSkiaRepFromBuffer_raw env st data width height scale_factor hpng hjpeg
      hw0 hh0 hsize]
    refine ⟨by simp [hsize], ?_, ?_, by simp⟩
    · intro hmin
      rw [hmin, N32MinByteSize, Int.toNat_le] at hsize
      simp [hsize]
    · intro _
      exact ⟨_, rfl, rfl⟩
  · have hlt : data.length < env.computeMinByteSize width height := by omega
    rw [AddImageSkiaRepFromBuffer_short env st data width height scale_factor hpng hjpeg
      hw0 hh0 hlt]
    refine ⟨by simp [hsize], ?_, by simp, by simp⟩
    intro hmin
    rw [hmin, N32MinByteSize, Int.toNat_le] at hsize
    simp [hsize]

/-- C5 at a 4x4 image: 64 bytes are enough, and the image gains one
representation at scale `1.0`. -/
theorem AddImageSkiaRepFromBuffer_raw_fallback_witness :
    (AddImageSkiaRepFromBuffer (exampleEnv []) State.init (exampleRaw 64) 4 4 1.0).1 = true ∧
    (∃ rep, (AddImageSkiaRepFromBuffer (exampleEnv []) State.init (exampleRaw 64) 4 4
        1.0).2.image.image_reps = State.init.image.image_reps ++ [rep] ∧ rep.scale = 1.0) ∧
    (AddImageSkiaRepFromBuffer (exampleEnv []) State.init (exampleRaw 63) 4 4 1.0).1
      = false :=
  have h64 := AddImageSkiaRepFromBuffer_raw_fallback (exampleEnv []) State.init
    (exampleRaw 64) 4 4 1.0 (by decide) (by decide) (by decide) (by decide)
  have h63 := AddImageSkiaRepFromBuffer_raw_fallback (exampleEnv []) State.init
    (exampleRaw 63) 4 4 1.0 (by decide) (by decide) (by decide) (by decide)
  ⟨(h64.2.1 rfl).2 (by decide), h64.2.2.1 ((h64.2.1 rfl).2 (by decide)),
    by
      have := (h63.2.1 rfl).not.2 (by decide)
      simpa using this⟩

/-- C6: for a buffer that neither codec accepts, `AddImageSkiaRepFromBuffer` with
`width = 0` and `height = 0` returns false and leaves the image as it was,
whatever the buffer size and the scale; only the two decoders are called. -/
theorem AddImageSkiaRepFromBuffer_corrupt_no_dimensions (env : Env) (st : State)
    (data : Bytes) (scale_factor : Rat)
    (hpng : env.PNGDecode data = none) (hjpeg : env.JPEGDecode data = none) :
    (AddImageSkiaRepFromBuffer env st data 0 0 scale_factor).1 = false ∧
    (AddImageSkiaRepFromBuffer env st data 0 0 scale_factor).2.image = st.image ∧
    (AddImageSkiaRepFromBuffer env st data 0 0 scale_factor).2.calls =
      st.calls ++ [.PNGDecode data, .JPEGDecode data] := by
  rw [AddImageSkiaRepFromBuffer_nodim env st data 0 0 scale_factor hpng hjpeg (Or.inl rfl)]
  exact ⟨rfl, rfl, rfl⟩

/-- C6 at a buffer of 100 arbitrary bytes and scale `2.0`. -/
theorem AddImageSkiaRepFromBuffer_corrupt_no_dimensions_witness :
    (AddImageSkiaRepFromBuffer (exampleEnv []) State.init (exampleRaw 100) 0 0 2.0).1
      = false ∧
    (AddImageSkiaRepFromBuffer (exampleEnv []) State.init (exampleRaw 100) 0 0 2.0).2.image
      = State.init.image ∧
    (AddImageSkiaRepFromBuffer (exampleEnv []) State.init (exampleRaw 100) 0 0 2.0).2.calls
      = State.init.calls ++ [.PNGDecode (exampleRaw 100), .JPEGDecode (exampleRaw 100)] :=
  AddImageSkiaRepFromBuffer_corrupt_no_dimensions (exampleEnv []) State.init
    (exampleRaw 100) 2.0 (by decide) (by decide)

/-- C7: for a buffer that the PNG codec accepts, and every width, height and
scale, `AddImageSkiaRepFromBuffer` returns true, the image gains exactly one
representation, the PNG-decoded bitmap at the requested scale, and the PNG
decoder is the only call made: neither the JPEG decoder nor the raw-buffer
fallback is reached. -/
theorem AddImageSkiaRepFromBuffer_valid_png (env : Env) (st : State) (data : Bytes)
    (width height : Int) (scale_factor : Rat) (bitmap : SkBitmap)
    (hpng : env.PNGDecode data = some bitmap) :
    (AddImageSkiaRepFromBuffer env st data width height scale_factor).1 = true ∧
    (AddImageSkiaRepFromBuffer env st data width height scale_factor).2.image.image_reps =
      st.image.image_reps ++ [⟨bitmap, scale_factor⟩] ∧
    (AddImageSkiaRepFromBuffer env st data width height scale_factor).2.calls =
      st.calls ++ [.PNGDecode data] := by
  rw [AddImageSkiaRepFromBuffer_png env st data width height scale_factor bitmap hpng]
  exact ⟨rfl, rfl, rfl⟩

/-- C7 at the example PNG bytes, with dimensions 4x4 and scale `1.5`. -/
theorem AddImageSkiaRepFromBuffer_valid_png_witness :
    (AddImageSkiaRepFromBuffer (exampleEnv []) State.init examplePNG 4 4 1.5).1 = true ∧
    (AddImageSkiaRepFromBuffer (exampleEnv []) State.init examplePNG 4 4
        1.5).2.image.image_reps = State.init.image.image_reps ++ [⟨examplePNGBitmap, 1.5⟩] ∧
    (AddImageSkiaRepFromBuffer (exampleEnv []) State.init examplePNG 4 4 1.5).2.calls =
      State.init.calls ++ [.PNGDecode examplePNG] :=
  AddImageSkiaRepFromBuffer_valid_png (exampleEnv []) State.init examplePNG 4 4 1.5
    examplePNGBitmap (by decide)

/-- C10: for every path, file-system state and scale, `AddImageSkiaRepFromPath`
returns true exactly when the file can be read and its bytes decode as PNG or as
JPEG; bytes read are handed to `AddImageSkiaRepFromBuffer` with `width = 0` and
`height = 0`, the calls made are the read and the decoders only, so the
raw-pixel fallback is never taken, and on false the image gains nothing. -/
theorem AddImageSkiaRepFromPath_png_or_jpeg_only (env : Env) (st : State)
    (path : FilePath) (scale_factor : Rat) :
    ((AddImageSkiaRepFromPath env st path scale_factor).1 = true ↔
      ∃ data, env.ReadFileToString path = some data ∧
        ((env.PNGDecode data).isSome = true ∨ (env.JPEGDecode data).isSome = true)) ∧
    (∀ data, env.ReadFileToString path = some data →
      AddImageSkiaRepFromPath env st path scale_factor =
        AddImageSkiaRepFromBuffer env (st.call (.ReadFileToString path)) data 0 0
          scale_factor) ∧
    (env.ReadFileToString path = none →
      AddImageSkiaRepFromPath env st path scale_factor =
        (false, st.call (.ReadFileToString path))) ∧
    (∀ c ∈ (AddImageSkiaRepFromPath env st path scale_factor).2.calls,
      c ∈ st.calls ∨ c = .ReadFileToString path ∨
        (∃ data, c = .PNGDecode data) ∨ (∃ data, c = .JPEGDecode data)) ∧
    ((AddImageSkiaRepFromPath env st path scale_factor).1 = false →
      (AddImageSkiaRepFromPath env st path scale_factor).2.image = st.image) := by
  refine ⟨?_, ?_, ?_, ?_, ?_⟩
  · rw [AddImageSkiaRepFromPath_eq]
    exact specLoad_isSome_iff env path scale_factor
  · intro data hread
    simp [AddImageSkiaRepFromPath, hread]
  · intro hread
    simp [AddImageSkiaRepFromPath, hread]
  · rw [AddImageSkiaRepFromPath_eq]
    intro c hc
    simp only [List.mem_append] at hc
    rcases hc with hc | hc
    · exact Or.inl hc
    · right
      unfold specLoadCalls at hc
      rcases List.mem_cons.1 hc with h | h
      · exact Or.inl h
      · right
        cases hread : env.ReadFileToString path with
        | none => simp [hread] at h
        | some data =>
          simp only [hread] at h
          unfold specDecodeCalls at h
          cases hpng : env.PNGDecode data with
          | none =>
            simp only [hpng, List.mem_cons, List.mem_singleton, List.not_mem_nil,
              or_false] at h
            rcases h with h | h
            · exact Or.inl ⟨data, h⟩
            · exact Or.inr ⟨data, h⟩
          | some bm =>
            simp only [hpng, List.mem_singleton] at h
            exact Or.inl ⟨data, h⟩
  · rw [AddImageSkiaRepFromPath_eq]
    intro h
    cases hload : specLoad env path scale_factor with
    | none => simp
    | some rep => simp [hload] at h

/-- C10 on a file of 64 bytes that are no image: the load fails although 64 bytes
would fill a 4x4 bitmap, and the image gains nothing. -/
theorem AddImageSkiaRepFromPath_png_or_jpeg_only_witness :
    AddImageSkiaRepFromPath (exampleEnv [("raw.bin".toList, exampleRaw 64)]) State.init
        "raw.bin".toList 1.0 =
      (false, ⟨⟨[]⟩, [.ReadFileToString "raw.bin".toList, .PNGDecode (exampleRaw 64),
        .JPEGDecode (exampleRaw 64)]⟩) :=
  ((AddImageSkiaRepFromPath_png_or_jpeg_only (exampleEnv [("raw.bin".toList, exampleRaw 64)])
    State.init "raw.bin".toList 1.0).2.1 (exampleRaw 64) (by decide)).trans (by rfl)

end util

end electron

namespace electron

namespace util

/-! ## The invariant of representations -/

theorem specDecode_wellFormed (env : Env)
    (hpng : ∀ data bitmap, env.PNGDecode data = some bitmap → bitmap.isNull = false)
    (hjpeg : ∀ data bitmap, env.JPEGDecode data = some bitmap → bitmap.isNull = false)
    (data : Bytes) (scale : Rat) (hscale : 0 < scale) (rep : ImageSkiaRep)
    (h : specDecode env data scale = some rep) : rep.WellFormed := by
  unfold specDecode at h
  cases h1 : env.PNGDecode data with
  | some bitmap =>
    simp only [h1, Option.some.injEq] at h
    rw [← h]
    exact ⟨hscale, hpng data bitmap h1⟩
  | none =>
    cases h2 : env.JPEGDecode data with
    | some bitmap =>
      simp only [h1, h2, Option.some.injEq] at h
      rw [← h]
      exact ⟨hscale, hjpeg data bitmap h2⟩
    | none => simp [h1, h2] at h

theorem specLoad_wellFormed (env : Env)
    (hpng : ∀ data bitmap, env.PNGDecode data = some bitmap → bitmap.isNull = false)
    (hjpeg : ∀ data bitmap, env.JPEGDecode data = some bitmap → bitmap.isNull = false)
    (path : FilePath) (scale : Rat) (hscale : 0 < scale) (rep : ImageSkiaRep)
    (h : specLoad env path scale = some rep) : rep.WellFormed := by
  unfold specLoad at h
  cases hread : env.ReadFileToString path with
  | none => simp [hread] at h
  | some data =>
    simp only [hread] at h
    exact specDecode_wellFormed env hpng hjpeg data scale hscale rep h

/-- A pixel copy that fails leaves the bitmap as it was. -/
theorem writePixels_failed (env : Env) (bitmap : SkBitmap) (info : SkImageInfo)
    (data : Bytes) (h : (writePixels env bitmap info data).1 = false) :
    (writePixels env bitmap info data).2 = bitmap := by
  unfold writePixels at h ⊢
  cases hp : bitmap.pixels with
  | none => simp
  | some px =>
    cases hw : env.writePixels bitmap info data bitmap.rowBytes with
    | none => simp
    | some px' => simp [hp, hw] at h

/-- The function `AddImageSkiaRepFromBuffer` appends what `specBufferReps` lists,
and returns true exactly when that is something. -/
theorem AddImageSkiaRepFromBuffer_eq_spec (env : Env) (st : State) (data : Bytes)
    (width height : Int) (scale : Rat) :
    (AddImageSkiaRepFromBuffer env st data width height scale).2.image.image_reps =
      st.image.image_reps ++ specBufferReps env data width height scale ∧
    ((AddImageSkiaRepFromBuffer env st data width height scale).1 = true ↔
      specBufferReps env data width height scale ≠ []) := by
  cases hpng : env.PNGDecode data with
  | some bitmap =>
    simp [AddImageSkiaRepFromBuffer_png env st data width height scale bitmap hpng,
      specBufferReps, specDecode, hpng]
  | none =>
    cases hjpeg : env.JPEGDecode data with
    | some bitmap =>
      simp [AddImageSkiaRepFromBuffer_jpeg env st data width height scale bitmap hpng hjpeg,
        specBufferReps, specDecode, hpng, hjpeg]
    | none =>
      by_cases hw : width = 0
      · rw [AddImageSkiaRepFromBuffer_nodim env st data width height scale hpng hjpeg
          (Or.inl hw)]
        simp [specBufferReps, specDecode, hpng, hjpeg, hw]
      · by_cases hh : height = 0
        · rw [AddImageSkiaRepFromBuffer_nodim env st data width height scale hpng hjpeg
            (Or.inr hh)]
          simp [specBufferReps, specDecode, hpng, hjpeg, hh]
        · by_cases hsize : env.computeMinByteSize width height ≤ data.length
          · simp [AddImageSkiaRepFromBuffer_raw env st data width height scale hpng hjpeg hw
              hh hsize, specBufferReps, specDecode, hpng, hjpeg, hw, hh, hsize]
          · have hlt : data.length < env.computeMinByteSize width height := by omega
            simp [AddImageSkiaRepFromBuffer_short env st data width height scale hpng hjpeg
              hw hh hlt, specBufferReps, specDecode, hpng, hjpeg, hw, hh, hsize]

/-- What `specBufferReps` lists after both decoders fail. -/
theorem specBufferReps_fallback (env : Env) (data : Bytes) (width height : Int)
    (scale : Rat) (hpng : env.PNGDecode data = none) (hjpeg : env.JPEGDecode data = none) :
    specBufferReps env data width height scale =
      if width ≠ 0 ∧ height ≠ 0 ∧ env.computeMinByteSize width height ≤ data.length then
        [⟨(writePixels env (env.allocN32Pixels width height false)
          (SkImageInfo.MakeN32 width height .kPremul_SkAlphaType) data).2, scale⟩]
      else [] := by
  simp [specBufferReps, specDecode, hpng, hjpeg]

/-- C8, as the code has it.  Every representation a loader operation appends
carries the scale factor the operation was given: the caller's `scale_factor`,
unchecked, for `AddImageSkiaRepFromPNG`, `AddImageSkiaRepFromJPEG`,
`AddImageSkiaRepFromBuffer` and `AddImageSkiaRepFromPath`, a table scale or `1.0`
for `PopulateImageSkiaRepsFromPath`, `1.0` for `ReadImageSkiaFromICO`.  So, when
the codecs and the allocator hand out non-null bitmaps, the appended
representation has a positive scale and a non-null bitmap whenever the caller's
scale is positive, and always for the last two operations.

What is appended, exactly: `AddImageSkiaRepFromPNG` and `AddImageSkiaRepFromJPEG`
append the decoded bitmap and nothing when their decoder fails;
`AddImageSkiaRepFromPath` and `PopulateImageSkiaRepsFromPath` append nothing for a
file that cannot be read or that neither decoder accepts; `ReadImageSkiaFromICO`
appends nothing for a null bitmap.  `AddImageSkiaRepFromBuffer` appends the
decoded bitmap when a decoder accepts the bytes; after both decoders fail it
appends nothing when a dimension is zero or the buffer is shorter than
`computeMinByteSize`, and otherwise it appends the allocated bitmap and returns
true whatever the pixel copy answers, also when the copy fails, the bitmap then
being the allocated one as it was. -/
theorem loader_appends_well_formed (env : Env) (st : State)
    (hpng : ∀ data bitmap, env.PNGDecode data = some bitmap → bitmap.isNull = false)
    (hjpeg : ∀ data bitmap, env.JPEGDecode data = some bitmap → bitmap.isNull = false)
    (halloc : ∀ w h flag, (env.allocN32Pixels w h flag).isNull = false) :
    (∀ data scale_factor, ∃ new,
      (AddImageSkiaRepFromPNG env st data scale_factor).2.image.image_reps =
        st.image.image_reps ++ new ∧
      (∀ rep ∈ new, rep.scale = scale_factor ∧ (0 < scale_factor → rep.WellFormed)) ∧
      (env.PNGDecode data = none → new = []) ∧
      (∀ bitmap, env.PNGDecode data = some bitmap → new = [⟨bitmap, scale_factor⟩])) ∧
    (∀ data scale_factor, ∃ new,
      (AddImageSkiaRepFromJPEG env st data scale_factor).2.image.image_reps =
        st.image.image_reps ++ new ∧
      (∀ rep ∈ new, rep.scale = scale_factor ∧ (0 < scale_factor → rep.WellFormed)) ∧
      (env.JPEGDecode data = none → new = []) ∧
      (∀ bitmap, env.JPEGDecode data = some bitmap →
        new = [⟨bitmap.setAlphaType .kOpaque_SkAlphaType, scale_factor⟩])) ∧
    (∀ data width height scale_factor, ∃ new,
      (AddImageSkiaRepFromBuffer env st data width height scale_factor).2.image.image_reps =
        st.image.image_reps ++ new ∧
      (∀ rep ∈ new, rep.scale = scale_factor ∧ (0 < scale_factor → rep.WellFormed)) ∧
      ((AddImageSkiaRepFromBuffer env st data width height scale_factor).1 = true ↔
        new ≠ []) ∧
      (∀ rep, specDecode env data scale_factor = some rep → new = [rep]) ∧
      (env.PNGDecode data = none → env.JPEGDecode data = none →
        (width = 0 ∨ height = 0 ∨ data.length < env.computeMinByteSize width height) →
        new = []) ∧
      (env.PNGDecode data = none → env.JPEGDecode data = none →
        width ≠ 0 → height ≠ 0 → env.computeMinByteSize width height ≤ data.length →
        (AddImageSkiaRepFromBuffer env st data width height scale_factor).1 = true ∧
        new = [⟨(writePixels env (env.allocN32Pixels width height false)
          (SkImageInfo.MakeN32 width height .kPremul_SkAlphaType) data).2, scale_factor⟩] ∧
        ((writePixels env (env.allocN32Pixels width height false)
            (SkImageInfo.MakeN32 width height .kPremul_SkAlphaType) data).1 = false →
          new = [⟨env.allocN32Pixels width height false, scale_factor⟩]))) ∧
    (∀ path scale_factor, ∃ new,
      (AddImageSkiaRepFromPath env st path scale_factor).2.image.image_reps =
        st.image.image_reps ++ new ∧
      (∀ rep ∈ new, rep.scale = scale_factor ∧ (0 < scale_factor → rep.WellFormed)) ∧
      new = (specLoad env path scale_factor).toList ∧
      (specLoad env path scale_factor = none → new = [])) ∧
    (∀ path, ∃ new,
      (PopulateImageSkiaRepsFromPath env st path).2.image.image_reps =
        st.image.image_reps ++ new ∧
      (∀ rep ∈ new, rep.WellFormed) ∧
      new = (specAttempts env path).filterMap (fun a => specLoad env a.1 a.2)) ∧
    (∀ icon, ∃ new,
      (ReadImageSkiaFromICO env st icon).2.image.image_reps = st.image.image_reps ++ new ∧
      (∀ rep ∈ new, rep.WellFormed ∧ rep.scale = 1.0) ∧
      ((env.CreateSkBitmapFromHICON icon).isNull = true → new = []) ∧
      ((env.CreateSkBitmapFromHICON icon).isNull = false →
        new = [⟨env.CreateSkBitmapFromHICON icon, 1.0⟩])) := by
  refine ⟨?_, ?_, ?_, ?_, ?_, ?_⟩
  · intro data scale
    cases h : env.PNGDecode data with
    | none =>
      exact ⟨[], by simp [AddImageSkiaRepFromPNG_none env st data scale h], by simp, by simp,
        by simp⟩
    | some bitmap =>
      refine ⟨[⟨bitmap, scale⟩],
        by simp [AddImageSkiaRepFromPNG_some env st data scale bitmap h], ?_, by simp,
        by simp⟩
      intro rep hrep
      rw [List.mem_singleton] at hrep
      rw [hrep]
      exact ⟨rfl, fun hs => ⟨hs, hpng data bitmap h⟩⟩
  · intro data scale
    cases h : env.JPEGDecode data with
    | none =>
      exact ⟨[], by simp [AddImageSkiaRepFromJPEG_none env st data scale h], by simp, by simp,
        by simp⟩
    | some bitmap =>
      refine ⟨[⟨bitmap.setAlphaType .kOpaque_SkAlphaType, scale⟩],
        by simp [AddImageSkiaRepFromJPEG_some env st data scale bitmap h], ?_, by simp,
        by simp⟩
      intro rep hrep
      rw [List.mem_singleton] at hrep
      rw [hrep]
      exact ⟨rfl, fun hs => ⟨hs, hjpeg data bitmap h⟩⟩
  · intro data width height scale
    have hspec := AddImageSkiaRepFromBuffer_eq_spec env st data width height scale
    refine ⟨specBufferReps env data width height scale, hspec.1, ?_, hspec.2, ?_, ?_, ?_⟩
    · intro rep hrep
      unfold specBufferReps at hrep
      cases hdec : specDecode env data scale with
      | some rep' =>
        simp only [hdec, List.mem_singleton] at hrep
        rw [hrep]
        exact ⟨specDecode_scale env data scale rep' hdec,
          fun hs => specDecode_wellFormed env hpng hjpeg data scale hs rep' hdec⟩
      | none =>
        simp only [hdec] at hrep
        split at hrep
        · rw [List.mem_singleton] at hrep
          rw [hrep]
          refine ⟨rfl, fun hs => ⟨hs, ?_⟩⟩
          show (writePixels env _ _ data).2.isNull = false
          rw [writePixels_isNull]
          exact halloc width height false
        · cases hrep
    · intro rep hdec
      simp [specBufferReps, hdec]
    · intro h1 h2 hcase
      rw [specBufferReps_fallback env data width height scale h1 h2]
      apply if_neg
      rintro ⟨hw, hh, hsize⟩
      rcases hcase with h | h | h
      · exact hw h
      · exact hh h
      · omega
    · intro h1 h2 hw hh hsize
      have hnew := specBufferReps_fallback env data width height scale h1 h2
      rw [if_pos ⟨hw, hh, hsize⟩] at hnew
      refine ⟨hspec.2.2 (by rw [hnew]; simp), hnew, ?_⟩
      intro hfail
      rw [hnew, writePixels_failed env _ _ data hfail]
  · intro path scale
    refine ⟨(specLoad env path scale).toList, by rw [AddImageSkiaRepFromPath_eq], ?_, rfl, ?_⟩
    · intro rep hrep
      rw [Option.mem_toList] at hrep
      exact ⟨specLoad_scale env path scale rep hrep,
        fun hs => specLoad_wellFormed env hpng hjpeg path scale hs rep hrep⟩
    · intro h
      simp [h]
  · intro path
    refine ⟨_, by rw [PopulateImageSkiaRepsFromPath_eq], ?_, rfl⟩
    intro rep hrep
    rcases List.mem_filterMap.1 hrep with ⟨a, ha, hload⟩
    exact specLoad_wellFormed env hpng hjpeg a.1 a.2 (specAttempts_scale_pos env path a ha)
      rep hload
  · intro icon
    by_cases hnull : (env.CreateSkBitmapFromHICON icon).isNull = true
    · exact ⟨[], by simp [ReadImageSkiaFromICO, hnull, State.call], by simp, by simp,
        by simp [hnull]⟩
    · refine ⟨[⟨env.CreateSkBitmapFromHICON icon, 1.0⟩],
        by simp [ReadImageSkiaFromICO, hnull, State.call, State.AddRepresentation,
          ImageSkia.AddRepresentation], ?_, by simp [hnull], by simp⟩
      intro rep hrep
      rw [List.mem_singleton] at hrep
      rw [hrep]
      refine ⟨⟨by norm_num, ?_⟩, rfl⟩
      simpa using hnull

/-- C8 on the example environment whose pixel copy fails, its codecs and allocator
handing out non-null bitmaps: 64 bytes that are no image, with dimensions 4x4 and
scale `1.0`, make the loader return true and append the bitmap as allocated, which
is well formed. -/
theorem loader_appends_well_formed_witness :
    (∀ data bitmap, exampleEnvFailingCopy.PNGDecode data = some bitmap →
      bitmap.isNull = false) ∧
    (∀ data bitmap, exampleEnvFailingCopy.JPEGDecode data = some bitmap →
      bitmap.isNull = false) ∧
    (∀ w h flag, (exampleEnvFailingCopy.allocN32Pixels w h flag).isNull = false) ∧
    (AddImageSkiaRepFromBuffer exampleEnvFailingCopy State.init (exampleRaw 64) 4 4 1.0).1
      = true ∧
    (AddImageSkiaRepFromBuffer exampleEnvFailingCopy State.init (exampleRaw 64) 4 4
        1.0).2.image.image_reps =
      [⟨⟨⟨4, 4, .kPremul_SkAlphaType⟩, 16, some (List.replicate 64 0)⟩, 1.0⟩] ∧
    (⟨⟨⟨4, 4, .kPremul_SkAlphaType⟩, 16, some (List.replicate 64 0)⟩, 1.0⟩ :
      ImageSkiaRep).WellFormed := by
  have hpng : ∀ data bitmap, exampleEnvFailingCopy.PNGDecode data = some bitmap →
      bitmap.isNull = false := by
    intro data bitmap h
    simp only [exampleEnvFailingCopy, exampleEnv, exampleDecode] at h
    split at h
    · injection h with h
      rw [← h]
      rfl
    · cases h
  have hjpeg : ∀ data bitmap, exampleEnvFailingCopy.JPEGDecode data = some bitmap →
      bitmap.isNull = false := by
    intro data bitmap h
    simp only [exampleEnvFailingCopy, exampleEnv, exampleDecode] at h
    split at h
    · injection h with h
      rw [← h]
      rfl
    · cases h
  have halloc : ∀ w h flag,
      (exampleEnvFailingCopy.allocN32Pixels w h flag).isNull = false :=
    fun _ _ _ => rfl
  obtain ⟨new, hreps, hwf, _, _, _, hraw⟩ :=
    (loader_appends_well_formed exampleEnvFailingCopy State.init hpng hjpeg halloc).2.2.1
      (exampleRaw 64) 4 4 1.0
  have h := hraw (by decide) (by decide) (by decide) (by decide) (by decide)
  have hnew : new = [⟨⟨⟨4, 4, .kPremul_SkAlphaType⟩, 16, some (List.replicate 64 0)⟩, 1.0⟩] :=
    (h.2.2 (by decide)).trans rfl
  refine ⟨hpng, hjpeg, halloc, h.1, ?_, ?_⟩
  · rw [hreps, hnew]
    rfl
  · exact (hwf _ (by rw [hnew]; exact List.mem_singleton.2 rfl)).2 (by norm_num)

/-- C8 fails as stated, in two ways.  A caller-supplied scale that is not positive
is stored as it is: valid PNG bytes handed to `AddImageSkiaRepFromBuffer` with
scale `-1`, and a valid PNG file handed to `AddImageSkiaRepFromPath` with scale
`-2`, each append a representation whose scale is negative.  And the raw-buffer
fallback appends although nothing was decoded or copied: with 64 bytes that
neither decoder accepts, dimensions 4x4 and a pixel copy that fails,
`AddImageSkiaRepFromBuffer` returns true and appends the bitmap as allocated. -/
theorem loader_appends_nonpositive_scale :
    AddImageSkiaRepFromBuffer (exampleEnv []) State.init examplePNG 0 0 (-1) =
      (true, ⟨⟨[⟨examplePNGBitmap, -1⟩]⟩, [.PNGDecode examplePNG]⟩) ∧
    ¬ (⟨examplePNGBitmap, -1⟩ : ImageSkiaRep).WellFormed ∧
    AddImageSkiaRepFromPath (exampleEnv [("icon.png".toList, examplePNG)]) State.init
        "icon.png".toList (-2) =
      (true, ⟨⟨[⟨examplePNGBitmap, -2⟩]⟩,
        [.ReadFileToString "icon.png".toList, .PNGDecode examplePNG]⟩) ∧
    ¬ (⟨examplePNGBitmap, -2⟩ : ImageSkiaRep).WellFormed ∧
    exampleEnvFailingCopy.PNGDecode (exampleRaw 64) = none ∧
    exampleEnvFailingCopy.JPEGDecode (exampleRaw 64) = none ∧
    (writePixels exampleEnvFailingCopy (exampleEnvFailingCopy.allocN32Pixels 4 4 false)
      (SkImageInfo.MakeN32 4 4 .kPremul_SkAlphaType) (exampleRaw 64)).1 = false ∧
    AddImageSkiaRepFromBuffer exampleEnvFailingCopy State.init (exampleRaw 64) 4 4 1.0 =
      (true, ⟨⟨[⟨⟨⟨4, 4, .kPremul_SkAlphaType⟩, 16, some (List.replicate 64 0)⟩, 1.0⟩]⟩,
        [.PNGDecode (exampleRaw 64), .JPEGDecode (exampleRaw 64), .computeMinByteSize 4 4,
         .allocN32Pixels 4 4,
         .writePixels (SkImageInfo.MakeN32 4 4 .kPremul_SkAlphaType) (exampleRaw 64)]⟩) := by
  refine ⟨rfl, ?_, rfl, ?_, by decide, by decide, by decide, rfl⟩
  · simp only [ImageSkiaRep.WellFormed, not_and]
    intro h
    norm_num at h
  · simp only [ImageSkiaRep.WellFormed, not_and]
    intro h
    norm_num at h

end util

namespace ElectronDesktopWindowTreeHostWin

/-! ## Claims on the inset queries -/

/-- C9: for every window state and monitor, `GetClientAreaInsets` and
`GetDwmFrameInsetsInPixels` each return true exactly when the window is maximized
and has no frame; then the client-area insets are top `0` and left, bottom, right
the frame thickness of the monitor; otherwise both return false and leave the
caller's insets as they were. -/
theorem inset_queries_override_iff (env : WindowEnv) (insets : Insets)
    (monitor : HMONITOR) :
    ((GetClientAreaInsets env insets monitor).1 = true ↔
      (env.IsMaximized = true ∧ env.has_frame = false)) ∧
    ((GetDwmFrameInsetsInPixels env insets).1 = true ↔
      (env.IsMaximized = true ∧ env.has_frame = false)) ∧
    ((env.IsMaximized = true ∧ env.has_frame = false) →
      (GetClientAreaInsets env insets monitor).2 =
        ⟨0, env.GetFrameThickness monitor, env.GetFrameThickness monitor,
          env.GetFrameThickness monitor⟩ ∧
      (GetClientAreaInsets env insets monitor).2.top = 0) ∧
    (¬ (env.IsMaximized = true ∧ env.has_frame = false) →
      GetClientAreaInsets env insets monitor = (false, insets) ∧
      GetDwmFrameInsetsInPixels env insets = (false, insets)) := by
  unfold GetClientAreaInsets GetDwmFrameInsetsInPixels
  cases hm : env.IsMaximized <;> cases hf : env.has_frame <;> simp

/-- C9 on a maximized frameless window and on a maximized framed one. -/
theorem inset_queries_override_iff_witness :
    GetClientAreaInsets (exampleWindowEnv true false) ⟨1, 2, 3, 4⟩ 0 = (true, ⟨0, 8, 8, 8⟩) ∧
    GetClientAreaInsets (exampleWindowEnv true true) ⟨1, 2, 3, 4⟩ 0 = (false, ⟨1, 2, 3, 4⟩) ∧
    GetDwmFrameInsetsInPixels (exampleWindowEnv true true) ⟨1, 2, 3, 4⟩
      = (false, ⟨1, 2, 3, 4⟩) :=
  have h := (inset_queries_override_iff (exampleWindowEnv true true) ⟨1, 2, 3, 4⟩ 0).2.2.2
    (by decide)
  ⟨Prod.ext
      ((inset_queries_override_iff (exampleWindowEnv true false) ⟨1, 2, 3, 4⟩ 0).1.2
        (by decide))
      (((inset_queries_override_iff (exampleWindowEnv true false) ⟨1, 2, 3, 4⟩ 0).2.2.1
        (by decide)).1.trans rfl),
    h.1, h.2⟩

end ElectronDesktopWindowTreeHostWin

end electron
